import Mathlib

/-!
Verification of the reconciliation engine of `taskw_gcal_sync` (syncall).

The Python sources are embedded shallowly:

* Python strings that undergo character-level processing are embedded as
  `List Char`; `splitChar`, `pyStrip`, `pyLower`, `pySplitColon1` model
  `str.split('\n')`, `str.strip()`, `str.lower()` and `str.split(':',
  maxsplit=1)` respectively.
* TaskWarrior items are Python dicts; they are embedded as association
  lists `TwItem = List (String × TwValue)` looked up by `dlookup`.
* Google-calendar event dicts are only ever built and read through the
  fixed field set `summary` / `description` / `start.dateTime` /
  `end.dateTime` / `htmlLink`, so they are embedded as the structure
  `GcalItem`.
* `GCalSide.format_datetime` / `GCalSide.parse_datetime` and the Python
  `uuid.UUID` class are not part of the sources; they are modelled from
  the spec (see their doc comments).

The functions `convert_tw_to_gcal`, `convert_gcal_to_tw`,
`parse_gcal_item_desc` (source `_parse_gcal_item_desc`), `register_items`
(`TWGCalAggregator.register_items`), `add_item`
(`TaskWarriorSide.add_item`) and `mainScript` (`scripts/tw_gcal_sync.main`
together with `TaskWarriorSide.__init__`) are line-by-line embeddings of
the corresponding Python definitions.
-/

/-- Characters counted as whitespace by Python's `str.strip()` (the
ASCII whitespace relevant to this code base). -/
def wsChar (c : Char) : Bool := c.isWhitespace

/-- Model of Python `s.split(sep)` for the one-character separator
`'\n'`: core `List.splitOn` has exactly Python's semantics (possibly
empty pieces between occurrences of the separator). -/
def splitChar (c : Char) (l : List Char) : List (List Char) :=
  List.splitOn c l

/-- Model of Python `str.strip()`: drop leading and trailing whitespace. -/
def pyStrip (l : List Char) : List Char :=
  ((l.dropWhile wsChar).reverse.dropWhile wsChar).reverse

/-- Model of Python `str.lower()` (ASCII case folding suffices here). -/
def pyLower (l : List Char) : List Char := l.map Char.toLower

/-- Model of Python `s.split(':', maxsplit=1)`: `none` when `s` has no
colon (`parts` has length 1), otherwise the part before the first colon
and everything after it. -/
def pySplitColon1 : List Char → Option (List Char × List Char)
  | [] => none
  | x :: xs =>
    if x = ':' then some ([], xs)
    else (pySplitColon1 xs).map (fun p => (x :: p.1, p.2))

/-- Decimal digit character. -/
def digitChar : Nat → Char
  | 0 => '0'
  | 1 => '1'
  | 2 => '2'
  | 3 => '3'
  | 4 => '4'
  | 5 => '5'
  | 6 => '6'
  | 7 => '7'
  | 8 => '8'
  | 9 => '9'
  | _ => '0'

/-- Decimal rendering of a natural number (model of Python
`'{}'.format(n)` for an `int`), fuel-based so it is structural. -/
def natCharsCore : Nat → Nat → List Char → List Char
  | 0, _, acc => acc
  | fuel + 1, n, acc =>
    if n < 10 then digitChar n :: acc
    else natCharsCore fuel (n / 10) (digitChar (n % 10) :: acc)

/-- Decimal rendering of a natural number. -/
def natChars (n : Nat) : List Char := natCharsCore (n + 1) n []

/-- Lowercase hexadecimal digits, as used in a canonical UUID string. -/
def isLowerHex (c : Char) : Bool := c ∈ "0123456789abcdef".data

/-- Canonical textual form of a UUID: 36 characters, hyphens exactly at
positions 8, 13, 18 and 23, lowercase hex digits elsewhere. -/
def isUuidChars (l : List Char) : Bool :=
  (l.length == 36) && l.all (fun c => isLowerHex c || c == '-') &&
    l.enum.all (fun p =>
      if p.1 = 8 ∨ p.1 = 13 ∨ p.1 = 18 ∨ p.1 = 23 then p.2 == '-'
      else isLowerHex p.2)

/-- Modelled from the spec: the Python `uuid.UUID` value class is not part
of the sources, so a UUID is modelled by its canonical string rendering
(`str(uuid)`), and `UUID(s)` (`parseUuid`) accepts exactly canonical
renderings, raising `ValueError` (here `none`) otherwise. -/
def UUIDv := { l : List Char // isUuidChars l = true }

instance : DecidableEq UUIDv := fun a b =>
  decidable_of_iff (a.val = b.val) Subtype.ext_iff.symm

/-- Modelled from the spec: Python `UUID(s)` — parse a canonical UUID
string, failing (`ValueError`, caught by the caller) on anything else. -/
def parseUuid (l : List Char) : Option UUIDv :=
  if h : isUuidChars l = true then some ⟨l, h⟩ else none

/-- Modelled from the spec: `GCalSide.format_datetime` /
`GCalSide.parse_datetime` are in `GCalSide.py`, which is not among the
sources.  Per the spec, formatting renders a datetime "as an absolute
instant (UTC offset preserved)" and parsing recovers it, so the rendered
string is modelled by the instant it denotes (an `Int`, e.g. seconds
since the epoch). -/
structure DtStr where
  instant : Int
deriving DecidableEq

/-- Modelled from the spec: `GCalSide.format_datetime`. -/
def format_datetime (t : Int) : DtStr := ⟨t⟩

/-- Modelled from the spec: `GCalSide.parse_datetime`. -/
def parse_datetime (s : DtStr) : Int := s.instant

/-- Python `timedelta(days=1)`, in the seconds-since-epoch model. -/
def oneDay : Int := 86400

/-- Values stored in a TaskWarrior item dict.  `other` stands for values
of fields the engine never reads or writes (`id`, `tags`, `urgency`,
…), which are only carried around. -/
inductive TwValue
  | str (s : List Char)
  | uuid (u : UUIDv)
  | dt (t : Int)
  | strList (ls : List (List Char))
  | other (tag : Nat)
deriving DecidableEq

/-- A TaskWarrior item: a Python dict, embedded as an association list in
insertion order with (for well-formed dicts) pairwise-distinct keys. -/
def TwItem := List (String × TwValue)

instance : DecidableEq TwItem := by
  unfold TwItem
  infer_instance

/-- Dict lookup, `item[k]` / `k in item`. -/
def dlookup (k : String) (t : TwItem) : Option TwValue :=
  (t.find? (fun p => p.1 == k)).map (fun p => p.2)

/-- A Google-calendar event dict.  The engine only ever touches the
fields `summary`, `description` (optional), `start.dateTime`,
`end.dateTime` and `htmlLink` (optional, assigned by the remote store),
so the dict is embedded as a structure over exactly those fields. -/
structure GcalItem where
  summary : List Char
  description : Option (List Char)
  startDT : DtStr
  endDT : DtStr
  htmlLink : Option (List Char)
deriving DecidableEq

/-- The five recognised TaskWarrior status values
(`['pending', 'completed', 'deleted', 'waiting', 'recurring']`). -/
def statusEnum : List (List Char) :=
  ["pending".data, "completed".data, "deleted".data, "waiting".data,
    "recurring".data]

/-- Header line `'IMPORTED FROM TASKWARRIOR'` of a synthesised event
description. -/
def headerChars : List Char := "IMPORTED FROM TASKWARRIOR".data

/-- The `'\n* Annotation {i+1}: {a}'` chunks appended to the event
description, one per entry of `tw_item['annotations']`, 1-indexed. -/
def annsChunk (as : List (List Char)) : List Char :=
  (as.enum.map
    (fun p =>
      '\n' :: ("* Annotation ".data ++ natChars (p.1 + 1) ++ ": ".data
        ++ p.2))).flatten

/-- Embedding of `TWGCalAggregator.convert_tw_to_gcal`.  `none` models
the `assert` on the keys `description` / `status` / `uuid` failing, a
`KeyError` on `tw_item['entry']`, or a value of an unexpected Python
type (which the Python would propagate as type garbage). -/
def convert_tw_to_gcal (t : TwItem) : Option GcalItem :=
  match dlookup "description" t, dlookup "status" t, dlookup "uuid" t,
      dlookup "entry" t with
  | some (.str dsc), some (.str st), some (.uuid u), some (.dt e) =>
    (match dlookup "annotations" t with
      | none => some []
      | some (.strList as) => some (annsChunk as)
      | some _ => none).bind
      (fun annsPart =>
        (match dlookup "due" t with
          | none => some (format_datetime (e + oneDay))
          | some (.dt d) => some (format_datetime d)
          | some _ => none).map
          (fun endDt =>
            { summary := dsc
              description := some
                ((headerChars ++ ['\n']) ++ annsPart ++ ['\n']
                  ++ ('\n' :: ("* status: ".data ++ st))
                  ++ ('\n' :: ("* uuid: ".data ++ u.val)))
              startDT := format_datetime e
              endDT := endDt
              htmlLink := none }))
  | _, _, _, _ => none

/-- The test `len(parts) == 2 and parts[0].lower().startswith("* annotation")`
of the annotation-consuming loop in `_parse_gcal_item_desc`. -/
def isAnnLine (l : List Char) : Bool :=
  match pySplitColon1 l with
  | some (p0, _) => List.isPrefixOf "* annotation".data (pyLower p0)
  | none => false

/-- The value `parts[1].strip()` appended for a matching line of the
annotation-consuming loop. -/
def annVal (l : List Char) : List Char :=
  match pySplitColon1 l with
  | some (_, p1) => pyStrip p1
  | none => []

/-- One step of the status/uuid scanning loop of
`_parse_gcal_item_desc` (state: current `status`, current `uuid`; a
`ValueError` from `UUID(...)` is caught and leaves `uuid` unchanged). -/
def scanStep (acc : List Char × Option UUIDv) (l : List Char) :
    List Char × Option UUIDv :=
  match pySplitColon1 l with
  | some (p0, p1) =>
    if List.isPrefixOf "* status".data (pyLower p0) then
      (pyLower (pyStrip p1), acc.2)
    else if List.isPrefixOf "* uuid".data (pyLower p0) then
      match parseUuid (pyStrip p1) with
      | some u => (acc.1, some u)
      | none => acc
    else acc
  | none => acc

/-- Embedding of `TWGCalAggregator._parse_gcal_item_desc` on the
description text.  Mirrors the Python: split on `'\n'`, keep non-empty
pieces, strip each, drop the first (header) line; consume the prefix run
of annotation lines, with `i` left at the index of the first
non-matching line (at `len(lines) - 1` when the loop ends without
`break`, at `0` — its pre-loop initialisation — when `lines` is empty);
return early when `i == len(lines) - 1` (an `Int` comparison: for empty
`lines` Python's `len(lines) - 1` is `-1`, so there is no early return);
otherwise scan `lines[i:]` for status and uuid lines. -/
def parseDescChars (desc : List Char) :
    List (List Char) × List Char × Option UUIDv :=
  let lines :=
    (((splitChar '\n' desc).filter (fun l => l ≠ [])).map pyStrip).drop 1
  let annLines := lines.takeWhile isAnnLine
  let anns := annLines.map annVal
  let i := if annLines.length = lines.length then lines.length - 1
    else annLines.length
  if (i : Int) = (lines.length : Int) - 1 then (anns, "pending".data, none)
  else
    let sc := (lines.drop i).foldl scanStep ("pending".data, none)
    (anns, sc.1, sc.2)

/-- Embedding of `TWGCalAggregator._parse_gcal_item_desc`: when the
event has no `description` key the defaults `([], 'pending', None)` are
returned. -/
def parse_gcal_item_desc (g : GcalItem) :
    List (List Char) × List Char × Option UUIDv :=
  match g.description with
  | none => ([], "pending".data, none)
  | some desc => parseDescChars desc

/-- Embedding of `TWGCalAggregator.convert_gcal_to_tw`.  Keys are
inserted in source order: `annotations`, `status` (skipped with a logged
warning when the parsed value is not one of the five recognised
statuses), `uuid` (skipped when unset), `description`, `entry`, `due`. -/
def convert_gcal_to_tw (g : GcalItem) : TwItem :=
  let parsed := parse_gcal_item_desc g
  [("annotations", TwValue.strList parsed.1)]
    ++ (if parsed.2.1 ∈ statusEnum then [("status", TwValue.str parsed.2.1)]
      else [])
    ++ (match parsed.2.2 with
      | some u => [("uuid", TwValue.uuid u)]
      | none => [])
    ++ [("description", TwValue.str g.summary),
      ("entry", TwValue.dt (parse_datetime g.startDT)),
      ("due", TwValue.dt (parse_datetime g.endDT))]

/-- Modelled from the spec: the Correspondence Table is realised in the
sources by a third-party `bidict` (not among the source files).  Per
spec §4.2 it is a set of (task id, calendar id) pairs, unique in both
directions; it is embedded as an association list of pairs. -/
def Bidict := List (List Char × List Char)

instance : DecidableEq Bidict := by
  unfold Bidict
  infer_instance

/-- Is some entry keyed by this task identifier present? -/
def hasTask (d : Bidict) (k : List Char) : Bool := d.any (fun p => p.1 == k)

/-- Is some entry keyed by this calendar identifier present? -/
def hasCal (d : Bidict) (v : List Char) : Bool := d.any (fun p => p.2 == v)

/-- Modelled from the spec: `insert(taskId, calendarId)` fails
(`DuplicateMappingError`, here `none`) if either side is already
mapped. -/
def bInsert (d : Bidict) (k v : List Char) : Option Bidict :=
  if hasTask d k || hasCal d v then none else some ((k, v) :: d)

/-- Modelled from the spec: `removeByTask(id)`. -/
def removeByTask (d : Bidict) (k : List Char) : Bidict :=
  d.filter (fun p => !(p.1 == k))

/-- Modelled from the spec: `removeByCalendar(id)`. -/
def removeByCalendar (d : Bidict) (v : List Char) : Bidict :=
  d.filter (fun p => !(p.2 == v))

/-- Modelled from the spec: `lookupByTask(id)`. -/
def lookupByTask (d : Bidict) (k : List Char) : Option (List Char) :=
  (d.find? (fun p => p.1 == k)).map (fun p => p.2)

/-- Modelled from the spec: `lookupByCalendar(id)`. -/
def lookupByCalendar (d : Bidict) (v : List Char) : Option (List Char) :=
  (d.find? (fun p => p.2 == v)).map (fun p => p.1)

/-- The bijection invariant of the Correspondence Table: no task
identifier and no calendar identifier appears in more than one entry. -/
def BidictWF (d : Bidict) : Prop :=
  (d.map Prod.fst).Nodup ∧ (d.map Prod.snd).Nodup

instance (d : Bidict) : Decidable (BidictWF d) := by
  unfold BidictWF
  infer_instance

/-- The two sides of the synchronisation (`item_type` strings
`"tw"` / `"gcal"`). -/
inductive SideTag
  | tw
  | gcal
deriving DecidableEq

/-- An item fetched from either side: a TaskWarrior dict or a
Google-calendar event dict. -/
inductive SyncItem
  | twI (t : TwItem)
  | gcalI (g : GcalItem)
deriving DecidableEq

/-- Failure modes of a `register_items` pass, each corresponding to an
exception propagating out of the Python loop.  `adapterError` records
the native identifier of the item whose remote `add_item` call raised
(bookkeeping for stating per-item properties; the Python exception
aborts the loop at exactly that item). -/
inductive RegError
  | keyError
  | convError
  | adapterError (id : List Char)
  | dupError
deriving DecidableEq

/-- Result of a `register_items` pass: the Correspondence Table after
the pass, the `add_item` calls issued (target side and the native id of
the item being registered, in order), the number of adapter calls
consumed, and the exception (if any) that aborted the loop. -/
structure RegOut where
  table : Bidict
  calls : List (SideTag × List Char)
  nAdds : Nat
  err : Option RegError
deriving DecidableEq

/-- Modelled from the spec: the external stores' `add_item` is a Side
Adapter capability ("addItem(convertedItem) -> storedItem (must return
the identifier assigned by the store)", spec §6).  The oracle gives, for
the k-th add call of a pass, the identifier the store assigns
(`item_registered[opposite_type_key]`), or `none` when the call raises
an `AdapterError`. -/
def AddOracle := Nat → Option (List Char)

/-- Computing `str(item[type_key])` for an item: `type_key` is `'uuid'`
for `item_type == 'tw'` and `'htmlLink'` for `'gcal'`.  `none` models
the `KeyError` when the key is missing (e.g. registering a dict of the
other shape); `str()` of a UUID value is its canonical rendering.  Only
the value shapes the sync path produces are modelled. -/
def nativeId : SideTag → SyncItem → Option (List Char)
  | .tw, .twI t =>
    match dlookup "uuid" t with
    | some (.uuid u) => some u.val
    | some (.str s) => some s
    | _ => none
  | .gcal, .gcalI g => g.htmlLink
  | _, _ => none

/-- The conversion `convert_fun` chosen by `register_items`:
`convert_tw_to_gcal` for `item_type == 'tw'`, else
`convert_gcal_to_tw`.  Applying the chosen conversion to a dict of the
other shape (never done by the sync pass) is modelled as failure. -/
def convertFor : SideTag → SyncItem → Option SyncItem
  | .tw, .twI t => (convert_tw_to_gcal t).map SyncItem.gcalI
  | .gcal, .gcalI g => some (SyncItem.twI (convert_gcal_to_tw g))
  | _, _ => none

/-- Key membership `_id not in registered_ids.keys()` in the view picked
by `item_type`: the forward view (`tw_gcal_ids`) keyed by task ids for
`'tw'`, the inverse view keyed by calendar ids for `'gcal'`. -/
def viewHasKey : SideTag → Bidict → List Char → Bool
  | .tw, d, k => hasTask d k
  | .gcal, d, k => hasCal d k

/-- The entry insertion `registered_ids[_id] = assigned` through the
view picked by `item_type` (an assignment through the inverse view
stores the mirrored pair). -/
def viewInsert : SideTag → Bidict → List Char → List Char → Option Bidict
  | .tw, d, k, y => bInsert d k y
  | .gcal, d, k, y => bInsert d y k

/-- Embedding of `TWGCalAggregator.register_items`.  For each item in
order: compute `_id = str(item[type_key])`; skip it when `_id` is
already a key of the chosen view; otherwise convert it, call
`side.add_item` — where `side` is
`self.gcal_side if item_type == "tw" else self.gcal_side`, i.e. the
calendar side in BOTH branches (source line 91) — and record the
(assigned id, `_id`) pair in the view.  Any exception aborts the loop
with the table as accumulated so far. -/
def register_items (oracle : AddOracle) (ty : SideTag) :
    List SyncItem → Bidict → Nat → RegOut
  | [], d, n => ⟨d, [], n, none⟩
  | it :: rest, d, n =>
    match nativeId ty it with
    | none => ⟨d, [], n, some .keyError⟩
    | some i =>
      if viewHasKey ty d i then register_items oracle ty rest d n
      else
        match convertFor ty it with
        | none => ⟨d, [], n, some .convError⟩
        | some _conv =>
          let side := match ty with
            | .tw => SideTag.gcal
            | .gcal => SideTag.gcal
          match oracle n with
          | none => ⟨d, [(side, i)], n + 1, some (.adapterError i)⟩
          | some y =>
            match viewInsert ty d i y with
            | none => ⟨d, [(side, i)], n + 1, some .dupError⟩
            | some d2 =>
              let r := register_items oracle ty rest d2 (n + 1)
              ⟨r.table, (side, i) :: r.calls, r.nAdds, r.err⟩

/-- Failure modes of `TaskWarriorSide.add_item`. -/
inductive AddErr
  | assertionError
  | keyError
deriving DecidableEq

/-- Embedding of `TaskWarriorSide.add_item`: `assert('description' in
item)`; then `len(item['desscription'])` — note the misspelt key — which
raises `KeyError` when that key is absent; only then is the item handed
to `taskw`'s `task_add` (external, modelled as success with the
description popped off the remaining dict). -/
def add_item (item : TwItem) : Except AddErr TwItem :=
  match dlookup "description" item with
  | none => .error .assertionError
  | some _ =>
    match dlookup "desscription" item with
    | none => .error .keyError
    | some _ => .ok (item.filter (fun p => !(p.1 == "description")))

/-- Stages reached by a run of `scripts/tw_gcal_sync.main`. -/
inductive MainOutcome
  | multiTagAbort
  | sideInitAbort
  | syncStarted
deriving DecidableEq

/-- Python values passed as the `tags` config entry (`main` builds
`{"tags": list(tw_tags)}`). -/
inductive PyVal
  | pstr (s : List Char)
  | plist (ls : List (List Char))
deriving DecidableEq

/-- Embedding of `TaskWarriorSide.__init__`'s tag validation: `if not
isinstance(self.config['tags'], str): ... raise RuntimeError`. -/
def taskWarriorSideInit (tags : PyVal) : Except Unit Unit :=
  match tags with
  | .pstr _ => .ok ()
  | .plist _ => .error ()

/-- Embedding of `scripts/tw_gcal_sync.main` up to the start of sync
work: raise `RuntimeError` when `len(tw_tags) != 1`; otherwise build
`tw_config = {"tags": list(tw_tags)}` and construct the aggregator,
whose `TWGCalAggregator.__init__` constructs
`TaskWarriorSide(**tw_config)` before any item is fetched or
registered. -/
def mainScript (tw_tags : List (List Char)) : MainOutcome :=
  if tw_tags.length ≠ 1 then .multiTagAbort
  else
    match taskWarriorSideInit (.plist tw_tags) with
    | .error _ => .sideInitAbort
    | .ok _ => .syncStarted

/-- A piece of text that survives the description round trip verbatim:
it contains no newline (so it stays on one line) and has no leading or
trailing whitespace (so `str.strip()` leaves it unchanged).  The empty
string is clean. -/
def cleanPiece (a : List Char) : Bool :=
  (!(a.contains '\n')) && a.head?.all (fun c => !wsChar c)
    && a.getLast?.all (fun c => !wsChar c)

/-- The text `'* Annotation {k}: {a}'` as a single line. -/
def annLineOf (k : Nat) (a : List Char) : List Char :=
  "* Annotation ".data ++ natChars k ++ ':' :: ' ' :: a

/-- The text `'* status: {st}'` as a single line. -/
def statusLine (st : List Char) : List Char := "* status: ".data ++ st

/-- The text `'* uuid: {u}'` as a single line. -/
def uuidLine (u : List Char) : List Char := "* uuid: ".data ++ u

/-- The annotation lines of a synthesised description, numbered from
`k + 1` onwards. -/
def annLinesFrom (k : Nat) (as : List (List Char)) : List (List Char) :=
  (List.enumFrom k as).map (fun p => annLineOf (p.1 + 1) p.2)

/-- Join a list of lines with `'\n'` separators (no trailing newline). -/
def joinNl (ps : List (List Char)) : List Char := ['\n'].intercalate ps

/-- The keys on which the task → calendar → task round trip is allowed
to differ, per the spec's round-trip field-set invariant. -/
def allowedDiffKeys : Finset String := {"entry", "due", "id", "tags", "urgency"}

/-- The key list (`set(t)`) of a TaskWarrior dict. -/
def twKeys (t : TwItem) : List String := t.map Prod.fst

/-- The fields of a valid TaskItem per the spec's data model (semantic
fields plus the TaskWarrior-generated `id` / `tags` / `urgency` carried
by the sample items). -/
def twKnownKeys : List String :=
  ["description", "status", "uuid", "entry", "due", "annotations",
    "id", "tags", "urgency"]

/-- A concrete canonical UUID used by witnesses. -/
def sampleUuid : UUIDv :=
  ⟨"1b4e28ba-2fa1-11d2-883f-b9a761bde3fb".data, by decide⟩

theorem dropWhile_ws_eq_self {l : List Char}
    (h : l.head?.all (fun c => !wsChar c) = true) :
    l.dropWhile wsChar = l := by
  cases l with
  | nil => rfl
  | cons x xs =>
    simp only [List.head?_cons, Option.all_some, Bool.not_eq_true'] at h
    simp [List.dropWhile_cons, h]

theorem pyStrip_eq_self {l : List Char}
    (h1 : l.head?.all (fun c => !wsChar c) = true)
    (h2 : l.getLast?.all (fun c => !wsChar c) = true) :
    pyStrip l = l := by
  unfold pyStrip
  rw [dropWhile_ws_eq_self h1]
  rw [dropWhile_ws_eq_self (by rwa [List.head?_reverse]), List.reverse_reverse]

theorem pyStrip_cons_ws {c : Char} (hc : wsChar c = true) (l : List Char) :
    pyStrip (c :: l) = pyStrip l := by
  unfold pyStrip
  rw [List.dropWhile_cons]
  simp [hc]

theorem cleanPiece_props {a : List Char} (h : cleanPiece a = true) :
    a.contains '\n' = false ∧ a.head?.all (fun c => !wsChar c) = true ∧
      a.getLast?.all (fun c => !wsChar c) = true := by
  rw [cleanPiece, Bool.and_eq_true, Bool.and_eq_true] at h
  exact ⟨by simpa using h.1.1, h.1.2, h.2⟩

theorem pyStrip_clean {a : List Char} (h : cleanPiece a = true) :
    pyStrip a = a :=
  pyStrip_eq_self (cleanPiece_props h).2.1 (cleanPiece_props h).2.2

theorem pyStrip_space_clean {a : List Char} (h : cleanPiece a = true) :
    pyStrip (' ' :: a) = a := by
  rw [pyStrip_cons_ws (by decide), pyStrip_clean h]

theorem pySplitColon1_append {xs : List Char} (ys : List Char)
    (h : ':' ∉ xs) :
    pySplitColon1 (xs ++ ':' :: ys) = some (xs, ys) := by
  induction xs with
  | nil => simp [pySplitColon1]
  | cons x xt ih =>
    have hx : ¬(x = ':') := fun e => h (e ▸ List.mem_cons_self _ _)
    have h' : ':' ∉ xt := fun m => h (List.mem_cons_of_mem _ m)
    simp [pySplitColon1, hx, ih h']

theorem pySplitColon1_none {xs : List Char} (h : ':' ∉ xs) :
    pySplitColon1 xs = none := by
  induction xs with
  | nil => rfl
  | cons x xt ih =>
    have hx : ¬(x = ':') := fun e => h (e ▸ List.mem_cons_self _ _)
    have h' : ':' ∉ xt := fun m => h (List.mem_cons_of_mem _ m)
    simp [pySplitColon1, hx, ih h']

theorem digitChar_mem (d : Nat) : digitChar d ∈ "0123456789".data := by
  unfold digitChar
  split <;> decide

theorem natCharsCore_mem :
    ∀ (f n : Nat) (acc : List Char) (c : Char),
      c ∈ natCharsCore f n acc → c ∈ "0123456789".data ∨ c ∈ acc := by
  intro f
  induction f with
  | zero => exact fun n acc c h => Or.inr h
  | succ f ih =>
    intro n acc c h
    unfold natCharsCore at h
    by_cases hn : n < 10
    · simp only [if_pos hn, List.mem_cons] at h
      rcases h with rfl | h
      · exact Or.inl (digitChar_mem n)
      · exact Or.inr h
    · rw [if_neg hn] at h
      rcases ih _ _ _ h with h | h
      · exact Or.inl h
      · rcases List.mem_cons.mp h with rfl | h
        · exact Or.inl (digitChar_mem _)
        · exact Or.inr h

theorem natChars_mem {n : Nat} {c : Char} (h : c ∈ natChars n) :
    c ∈ "0123456789".data := by
  rcases natCharsCore_mem _ _ _ _ h with h | h
  · exact h
  · cases h

theorem digit_char_props :
    ∀ c ∈ "0123456789".data, ¬(c = ':') ∧ ¬(c = '\n') ∧ wsChar c = false := by
  decide

theorem ann_prefix (x : List Char) :
    List.isPrefixOf "* annotation".data
      (pyLower ("* Annotation ".data ++ x)) = true := by
  rw [List.isPrefixOf_iff_prefix]
  unfold pyLower
  rw [List.map_append]
  have h1 : List.map Char.toLower "* Annotation ".data
      = "* annotation ".data := by decide
  have h2 : "* annotation ".data = "* annotation".data ++ [' '] := by decide
  rw [h1, h2, List.append_assoc]
  exact List.prefix_append _ _

theorem hexOrDash_props :
    ∀ c : Char, (isLowerHex c || c == '-') = true →
      ¬(c = ':') ∧ ¬(c = '\n') ∧ wsChar c = false := by
  intro c h
  rw [Bool.or_eq_true] at h
  rcases h with h | h
  · have hc : c ∈ "0123456789abcdef".data := by simpa [isLowerHex] using h
    have hall : ∀ x ∈ "0123456789abcdef".data,
        ¬(x = ':') ∧ ¬(x = '\n') ∧ wsChar x = false := by decide
    exact hall c hc
  · have : c = '-' := by simpa using h
    subst this
    exact ⟨by decide, by decide, by decide⟩

theorem uuid_facts (u : UUIDv) :
    u.val.length = 36 ∧
      ∀ c ∈ u.val, (isLowerHex c || c == '-') = true := by
  have h := u.property
  rw [isUuidChars, Bool.and_eq_true, Bool.and_eq_true] at h
  exact ⟨by simpa using h.1.1, fun c hc => List.all_eq_true.mp h.1.2 c hc⟩

theorem uuid_val_ne_nil (u : UUIDv) : u.val ≠ [] := by
  intro h
  have := (uuid_facts u).1
  rw [h] at this
  simp at this

theorem uuid_val_clean (u : UUIDv) : cleanPiece u.val = true := by
  have hcs := (uuid_facts u).2
  have hnl : '\n' ∉ u.val := fun hm =>
    (hexOrDash_props _ (hcs _ hm)).2.1 rfl
  rw [cleanPiece, Bool.and_eq_true, Bool.and_eq_true]
  refine ⟨⟨by simpa using hnl, ?_⟩, ?_⟩
  · cases hv : u.val with
    | nil => simp
    | cons x xs =>
      have : x ∈ u.val := by rw [hv]; exact List.mem_cons_self _ _
      simp [(hexOrDash_props _ (hcs _ this)).2.2]
  · rw [List.getLast?_eq_getLast_of_ne_nil (uuid_val_ne_nil u)]
    have : u.val.getLast (uuid_val_ne_nil u) ∈ u.val := List.getLast_mem _
    simp [(hexOrDash_props _ (hcs _ this)).2.2]

theorem uuid_val_no_colon (u : UUIDv) : ':' ∉ u.val := fun hm =>
  (hexOrDash_props _ ((uuid_facts u).2 _ hm)).1 rfl

theorem parseUuid_val (u : UUIDv) : parseUuid u.val = some u := by
  rw [parseUuid, dif_pos u.property]
  exact congrArg some (Subtype.ext rfl)

theorem joinNl_cons_ne (l : List Char) {ps : List (List Char)}
    (h : ps ≠ []) :
    joinNl (l :: ps) = l ++ '\n' :: joinNl ps := by
  cases ps with
  | nil => cases h rfl
  | cons q qs => simp [joinNl, List.intercalate, List.intersperse]

theorem splitChar_joinNl {ps : List (List Char)}
    (h : ∀ p ∈ ps, '\n' ∉ p) (hne : ps ≠ []) :
    splitChar '\n' (joinNl ps) = ps :=
  List.splitOn_intercalate ps '\n' h hne

theorem annLineOf_head (k : Nat) (a : List Char) :
    (annLineOf k a).head?.all (fun c => !wsChar c) = true := by
  have he : "* Annotation ".data = '*' :: " Annotation ".data := rfl
  rw [annLineOf, he, List.cons_append, List.cons_append]
  simp only [List.head?_cons, Option.all_some, Bool.not_eq_true']
  decide

theorem annLineOf_ne_nil (k : Nat) (a : List Char) : annLineOf k a ≠ [] := by
  have he : "* Annotation ".data = '*' :: " Annotation ".data := rfl
  rw [annLineOf, he, List.cons_append, List.cons_append]
  exact List.cons_ne_nil _ _

theorem annLineOf_no_nl (k : Nat) (a : List Char)
    (h : a.contains '\n' = false) : '\n' ∉ annLineOf k a := by
  intro hm
  rw [annLineOf] at hm
  rcases List.mem_append.mp hm with hm | hm
  · rcases List.mem_append.mp hm with hm | hm
    · revert hm; decide
    · exact (digit_char_props _ (natChars_mem hm)).2.1 rfl
  · rcases List.mem_cons.mp hm with hm | hm
    · exact absurd hm (by decide)
    · rcases List.mem_cons.mp hm with hm | hm
      · exact absurd hm (by decide)
      · have : '\n' ∉ a := by simpa using h
        exact this hm

theorem pre_no_colon (k : Nat) :
    ':' ∉ "* Annotation ".data ++ natChars k := by
  intro hm
  rcases List.mem_append.mp hm with hm | hm
  · revert hm; decide
  · exact (digit_char_props _ (natChars_mem hm)).1 rfl

theorem annLine_strip (k : Nat) (a : List Char) (h : cleanPiece a = true) :
    pyStrip (annLineOf k a)
      = ("* Annotation ".data ++ natChars k)
        ++ (if a = [] then [':'] else ':' :: ' ' :: a) := by
  have hprops := cleanPiece_props h
  have hhead := annLineOf_head k a
  rw [pyStrip, dropWhile_ws_eq_self hhead]
  rw [annLineOf]
  cases a with
  | nil =>
    rw [if_pos rfl]
    rw [show (':' :: ' ' :: ([] : List Char)) = [':', ' '] from rfl]
    rw [List.reverse_append]
    rw [show ([':', ' '] : List Char).reverse = [' ', ':'] from rfl]
    rw [show ([' ', ':'] : List Char)
        ++ ("* Annotation ".data ++ natChars k).reverse
      = ' ' :: ':' :: ("* Annotation ".data ++ natChars k).reverse from rfl]
    rw [List.dropWhile_cons_of_pos (by decide),
      List.dropWhile_cons_of_neg (by decide)]
    rw [show (':' :: ("* Annotation ".data ++ natChars k).reverse)
      = ([':'] : List Char) ++ ("* Annotation ".data ++ natChars k).reverse
      from rfl]
    rw [List.reverse_append, List.reverse_reverse]
    rfl
  | cons x xs =>
    rw [if_neg (List.cons_ne_nil x xs)]
    rw [show (':' :: ' ' :: (x :: xs)) = [':', ' '] ++ x :: xs from rfl]
    rw [← List.append_assoc]
    rw [List.reverse_append]
    have hrev : (x :: xs).reverse.dropWhile wsChar = (x :: xs).reverse := by
      apply dropWhile_ws_eq_self
      rw [List.head?_reverse]
      exact hprops.2.2
    rw [List.dropWhile_append, hrev]
    rw [if_neg (by simp)]
    rw [List.reverse_append, List.reverse_reverse]
    simp

theorem annLine_parsed (k : Nat) (a : List Char) (h : cleanPiece a = true) :
    isAnnLine (pyStrip (annLineOf k a)) = true ∧
      annVal (pyStrip (annLineOf k a)) = a := by
  rw [annLine_strip k a h]
  by_cases ha : a = []
  · subst ha
    rw [if_pos rfl]
    constructor
    · simp only [isAnnLine,
        pySplitColon1_append ([] : List Char) (pre_no_colon k)]
      exact ann_prefix _
    · simp only [annVal,
        pySplitColon1_append ([] : List Char) (pre_no_colon k)]
      rfl
  · rw [if_neg ha]
    constructor
    · simp only [isAnnLine, pySplitColon1_append (' ' :: a) (pre_no_colon k)]
      exact ann_prefix _
    · simp only [annVal, pySplitColon1_append (' ' :: a) (pre_no_colon k)]
      exact pyStrip_space_clean h

theorem status_line_facts (st : List Char) (hst : st ∈ statusEnum) :
    pyStrip (statusLine st) = statusLine st ∧
      isAnnLine (statusLine st) = false ∧
      (∀ acc : List Char × Option UUIDv,
        scanStep acc (statusLine st) = (st, acc.2)) ∧
      '\n' ∉ statusLine st ∧ statusLine st ≠ [] := by
  fin_cases hst <;>
    exact ⟨by decide, by decide, fun acc => rfl, by decide, by decide⟩

theorem uuid_line_eq (u : UUIDv) :
    uuidLine u.val = "* uuid".data ++ ':' :: ' ' :: u.val := rfl

theorem uuid_line_facts (u : UUIDv) :
    pyStrip (uuidLine u.val) = uuidLine u.val ∧
      isAnnLine (uuidLine u.val) = false ∧
      (∀ acc : List Char × Option UUIDv,
        scanStep acc (uuidLine u.val) = (acc.1, some u)) ∧
      '\n' ∉ uuidLine u.val ∧ uuidLine u.val ≠ [] := by
  have hsplit : pySplitColon1 (uuidLine u.val)
      = some ("* uuid".data, ' ' :: u.val) := by
    rw [uuid_line_eq]
    exact pySplitColon1_append _ (by decide)
  refine ⟨?_, ?_, ?_, ?_, ?_⟩
  · apply pyStrip_eq_self
    · rw [show uuidLine u.val = '*' :: (" uuid: ".data ++ u.val) from rfl]
      simp only [List.head?_cons, Option.all_some, Bool.not_eq_true']
      decide
    · rw [uuidLine, List.getLast?_append_of_ne_nil _ (uuid_val_ne_nil u)]
      exact (cleanPiece_props (uuid_val_clean u)).2.2
  · simp only [isAnnLine, hsplit]
    decide
  · intro acc
    simp only [scanStep, hsplit]
    rw [if_neg (by decide), if_pos (by decide)]
    rw [pyStrip_space_clean (uuid_val_clean u), parseUuid_val]
  · intro hm
    rw [uuidLine] at hm
    rcases List.mem_append.mp hm with hm | hm
    · revert hm; decide
    · exact (hexOrDash_props _ ((uuid_facts u).2 _ hm)).2.1 rfl
  · rw [show uuidLine u.val = '*' :: (" uuid: ".data ++ u.val) from rfl]
    exact List.cons_ne_nil _ _

theorem takeWhile_append_stop {α : Type} (p : α → Bool) (xs : List α)
    (y : α) (ys : List α) (hall : ∀ x ∈ xs, p x = true)
    (hy : p y = false) :
    (xs ++ y :: ys).takeWhile p = xs := by
  induction xs with
  | nil =>
    rw [List.nil_append]
    exact List.takeWhile_cons_of_neg (by simp [hy])
  | cons x xt ih =>
    rw [List.cons_append,
      List.takeWhile_cons_of_pos (hall x (List.mem_cons_self _ _))]
    rw [ih (fun z hz => hall z (List.mem_cons_of_mem _ hz))]

theorem annsChunk_enumFrom (as : List (List Char)) :
    annsChunk as = ((List.enumFrom 0 as).map
      (fun p => '\n' :: annLineOf (p.1 + 1) p.2)).flatten := by
  rw [annsChunk, List.enum_eq_enumFrom]
  congr 1
  apply List.map_congr_left
  intro p _
  rw [annLineOf, List.append_assoc]
  rfl

theorem joinNl_singleton (l : List Char) : joinNl [l] = l := by
  simp [joinNl, List.intercalate, List.intersperse]

theorem joinNl_three (S U : List Char) :
    joinNl [[], S, U] = '\n' :: (S ++ '\n' :: U) := by
  rw [joinNl_cons_ne _ (by simp), joinNl_cons_ne _ (by simp),
    joinNl_singleton, List.nil_append]

theorem chunk_join (as : List (List Char)) :
    ∀ (k : Nat) (T : List (List Char)), T ≠ [] →
      ((List.enumFrom k as).map
          (fun p => '\n' :: annLineOf (p.1 + 1) p.2)).flatten
          ++ '\n' :: joinNl T
        = '\n' :: joinNl
            ((List.enumFrom k as).map (fun p => annLineOf (p.1 + 1) p.2)
              ++ T) := by
  induction as with
  | nil =>
    intro k T hT
    simp
  | cons a rest ih =>
    intro k T hT
    have hne :
        (List.enumFrom (k + 1) rest).map (fun p => annLineOf (p.1 + 1) p.2)
            ++ T ≠ [] := by
      intro hc
      exact hT (List.append_eq_nil.mp hc).2
    simp only [List.enumFrom_cons, List.map_cons, List.flatten_cons,
      List.cons_append]
    rw [joinNl_cons_ne _ hne]
    rw [List.append_assoc, ih (k + 1) T hT]

theorem synth_desc_eq (as : List (List Char)) (S U : List Char) :
    (headerChars ++ ['\n']) ++ annsChunk as ++ ['\n'] ++ ('\n' :: S)
        ++ ('\n' :: U)
      = joinNl (headerChars :: []
          :: ((List.enumFrom 0 as).map (fun p => annLineOf (p.1 + 1) p.2)
            ++ [[], S, U])) := by
  rw [joinNl_cons_ne _ (by simp), joinNl_cons_ne _ (by simp),
    List.nil_append]
  rw [← chunk_join as 0 [[], S, U] (by simp)]
  rw [joinNl_three]
  rw [annsChunk_enumFrom]
  simp [List.append_assoc]

theorem annLines_facts :
    ∀ (as : List (List Char)) (k : Nat),
      (∀ a ∈ as, cleanPiece a = true) →
      (∀ l ∈ (List.enumFrom k as).map (fun p => annLineOf (p.1 + 1) p.2),
          '\n' ∉ l ∧ l ≠ []) ∧
      (∀ l ∈ ((List.enumFrom k as).map
            (fun p => annLineOf (p.1 + 1) p.2)).map pyStrip,
          isAnnLine l = true) ∧
      (((List.enumFrom k as).map (fun p => annLineOf (p.1 + 1) p.2)).map
            pyStrip).map annVal
        = as := by
  intro as
  induction as with
  | nil =>
    intro k h
    refine ⟨?_, ?_, rfl⟩ <;> simp
  | cons a rest ih =>
    intro k h
    have ha := h a (List.mem_cons_self _ _)
    have hr := ih (k + 1) (fun x hx => h x (List.mem_cons_of_mem _ hx))
    have hline := annLine_parsed (k + 1) a ha
    refine ⟨?_, ?_, ?_⟩
    · intro l hl
      simp only [List.enumFrom_cons, List.map_cons, List.mem_cons] at hl
      rcases hl with rfl | hl
      · exact ⟨annLineOf_no_nl _ _ (cleanPiece_props ha).1,
          annLineOf_ne_nil _ _⟩
      · exact hr.1 l hl
    · intro l hl
      simp only [List.enumFrom_cons, List.map_cons, List.mem_cons] at hl
      rcases hl with rfl | hl
      · exact hline.1
      · exact hr.2.1 l hl
    · simp only [List.enumFrom_cons, List.map_cons]
      rw [hline.2, hr.2.2]

theorem parseDescChars_synth (as : List (List Char))
    (hclean : ∀ a ∈ as, cleanPiece a = true) (st : List Char)
    (hst : st ∈ statusEnum) (u : UUIDv) :
    parseDescChars
      ((headerChars ++ ['\n']) ++ annsChunk as ++ ['\n']
        ++ ('\n' :: statusLine st) ++ ('\n' :: uuidLine u.val))
      = (as, st, some u) := by
  have hS := status_line_facts st hst
  have hU := uuid_line_facts u
  have hAL := annLines_facts as 0 hclean
  have hsplit : splitChar '\n'
      ((headerChars ++ ['\n']) ++ annsChunk as ++ ['\n']
        ++ ('\n' :: statusLine st) ++ ('\n' :: uuidLine u.val))
      = headerChars :: []
          :: ((List.enumFrom 0 as).map (fun p => annLineOf (p.1 + 1) p.2)
            ++ [[], statusLine st, uuidLine u.val]) := by
    rw [synth_desc_eq]
    apply splitChar_joinNl _ (by simp)
    intro p hp
    simp only [List.mem_cons, List.mem_append, List.mem_singleton,
      List.not_mem_nil, or_false] at hp
    rcases hp with rfl | rfl | hp | rfl | rfl | rfl
    · decide
    · simp
    · exact (hAL.1 p hp).1
    · simp
    · exact hS.2.2.2.1
    · exact hU.2.2.2.1
  have h3 : List.filter (fun l => l ≠ [])
        [[], statusLine st, uuidLine u.val]
      = [statusLine st, uuidLine u.val] := by
    simp [List.filter, hS.2.2.2.2, hU.2.2.2.2]
  have hfilter : (headerChars :: []
        :: ((List.enumFrom 0 as).map (fun p => annLineOf (p.1 + 1) p.2)
          ++ [[], statusLine st, uuidLine u.val])).filter
        (fun l => l ≠ [])
      = headerChars
        :: ((List.enumFrom 0 as).map (fun p => annLineOf (p.1 + 1) p.2)
          ++ [statusLine st, uuidLine u.val]) := by
    rw [List.filter_cons_of_pos (by decide),
      List.filter_cons_of_neg (by decide), List.filter_append]
    rw [List.filter_eq_self.mpr
      (fun l hl => decide_eq_true (hAL.1 l hl).2)]
    rw [h3]
  have hmap : (headerChars
        :: ((List.enumFrom 0 as).map (fun p => annLineOf (p.1 + 1) p.2)
          ++ [statusLine st, uuidLine u.val])).map pyStrip
      = pyStrip headerChars
        :: (((List.enumFrom 0 as).map
              (fun p => annLineOf (p.1 + 1) p.2)).map pyStrip
          ++ [statusLine st, uuidLine u.val]) := by
    rw [List.map_cons, List.map_append]
    simp [hS.1, hU.1]
  have hlines :
      ((((splitChar '\n'
          ((headerChars ++ ['\n']) ++ annsChunk as ++ ['\n']
            ++ ('\n' :: statusLine st)
            ++ ('\n' :: uuidLine u.val))).filter
          (fun l => l ≠ [])).map pyStrip).drop 1)
      = ((List.enumFrom 0 as).map
            (fun p => annLineOf (p.1 + 1) p.2)).map pyStrip
        ++ [statusLine st, uuidLine u.val] := by
    rw [hsplit, hfilter, hmap]
    rfl
  have htake :
      (((List.enumFrom 0 as).map
            (fun p => annLineOf (p.1 + 1) p.2)).map pyStrip
        ++ statusLine st :: [uuidLine u.val]).takeWhile isAnnLine
      = ((List.enumFrom 0 as).map
            (fun p => annLineOf (p.1 + 1) p.2)).map pyStrip :=
    takeWhile_append_stop _ _ _ _ hAL.2.1 hS.2.1
  have hlen1 :
      (((List.enumFrom 0 as).map
          (fun p => annLineOf (p.1 + 1) p.2)).map pyStrip).length
      = as.length := by
    simp [List.length_map, List.enumFrom_length]
  have hlen2 :
      (((List.enumFrom 0 as).map
            (fun p => annLineOf (p.1 + 1) p.2)).map pyStrip
        ++ [statusLine st, uuidLine u.val]).length
      = as.length + 2 := by
    rw [List.length_append, hlen1]
    rfl
  have hdrop :
      (((List.enumFrom 0 as).map
            (fun p => annLineOf (p.1 + 1) p.2)).map pyStrip
        ++ [statusLine st, uuidLine u.val]).drop as.length
      = [statusLine st, uuidLine u.val] :=
    List.drop_left' hlen1
  simp only [parseDescChars, hlines, htake, hlen1, hlen2]
  have hi : (if as.length = as.length + 2 then as.length + 2 - 1
      else as.length) = as.length := if_neg (by omega)
  rw [hi]
  rw [if_neg (by
    push_cast
    omega)]
  rw [hdrop]
  simp only [List.foldl_cons, List.foldl_nil]
  rw [hS.2.2.1 ("pending".data, none)]
  rw [hU.2.2.1 (st, none)]
  rw [hAL.2.2]

theorem dlookup_cons (key : String) (v : TwValue) (rest : TwItem)
    (k : String) :
    dlookup k ((key, v) :: rest)
      = if key == k then some v else dlookup k rest := by
  rw [dlookup, List.find?_cons]
  cases hpa : (key == k) <;> simp [hpa, dlookup]

theorem dlookup_eq_none_iff {k : String} {t : TwItem} :
    dlookup k t = none ↔ k ∉ twKeys t := by
  rw [dlookup, Option.map_eq_none', List.find?_eq_none]
  constructor
  · intro h hm
    rcases List.mem_map.mp hm with ⟨p, hp, rfl⟩
    exact (h p hp) (by simp)
  · intro h p hp hbeq
    exact h (List.mem_map.mpr ⟨p, hp, eq_of_beq hbeq⟩)

theorem convert_tw_to_gcal_nodue (t : TwItem) (dsc st : List Char)
    (u : UUIDv) (e : Int) (as : List (List Char))
    (hd : dlookup "description" t = some (TwValue.str dsc))
    (hs : dlookup "status" t = some (TwValue.str st))
    (hu : dlookup "uuid" t = some (TwValue.uuid u))
    (he : dlookup "entry" t = some (TwValue.dt e))
    (hann : dlookup "annotations" t = some (TwValue.strList as))
    (hdue : dlookup "due" t = none) :
    convert_tw_to_gcal t = some
      { summary := dsc
        description := some
          ((headerChars ++ ['\n']) ++ annsChunk as ++ ['\n']
            ++ ('\n' :: statusLine st) ++ ('\n' :: uuidLine u.val))
        startDT := format_datetime e
        endDT := format_datetime (e + oneDay)
        htmlLink := none } := by
  rw [convert_tw_to_gcal, hd, hs, hu, he, hann, hdue]
  rfl

theorem convert_tw_to_gcal_due (t : TwItem) (dsc st : List Char)
    (u : UUIDv) (e dd : Int) (as : List (List Char))
    (hd : dlookup "description" t = some (TwValue.str dsc))
    (hs : dlookup "status" t = some (TwValue.str st))
    (hu : dlookup "uuid" t = some (TwValue.uuid u))
    (he : dlookup "entry" t = some (TwValue.dt e))
    (hann : dlookup "annotations" t = some (TwValue.strList as))
    (hdue : dlookup "due" t = some (TwValue.dt dd)) :
    convert_tw_to_gcal t = some
      { summary := dsc
        description := some
          ((headerChars ++ ['\n']) ++ annsChunk as ++ ['\n']
            ++ ('\n' :: statusLine st) ++ ('\n' :: uuidLine u.val))
        startDT := format_datetime e
        endDT := format_datetime dd
        htmlLink := none } := by
  rw [convert_tw_to_gcal, hd, hs, hu, he, hann, hdue]
  rfl

theorem convert_gcal_to_tw_of_parse (g : GcalItem)
    (anns : List (List Char)) (st : List Char) (u : UUIDv)
    (hp : parse_gcal_item_desc g = (anns, st, some u))
    (hse : st ∈ statusEnum) :
    convert_gcal_to_tw g
      = [("annotations", TwValue.strList anns),
        ("status", TwValue.str st), ("uuid", TwValue.uuid u),
        ("description", TwValue.str g.summary),
        ("entry", TwValue.dt (parse_datetime g.startDT)),
        ("due", TwValue.dt (parse_datetime g.endDT))] := by
  rw [convert_gcal_to_tw, hp]
  rw [if_pos hse]
  rfl

theorem round_trip_pointwise (t : TwItem) (dsc st : List Char)
    (u : UUIDv) (e X : Int) (as : List (List Char))
    (hd : dlookup "description" t = some (TwValue.str dsc))
    (hs : dlookup "status" t = some (TwValue.str st))
    (hu : dlookup "uuid" t = some (TwValue.uuid u))
    (hann : dlookup "annotations" t = some (TwValue.strList as))
    (hkeys : ∀ k ∈ twKeys t, k ∈ twKnownKeys) :
    ∀ k : String, k ∉ allowedDiffKeys →
      dlookup k t = dlookup k
        [("annotations", TwValue.strList as), ("status", TwValue.str st),
          ("uuid", TwValue.uuid u), ("description", TwValue.str dsc),
          ("entry", TwValue.dt e), ("due", TwValue.dt X)] := by
  intro k hk
  have hne : k ≠ "entry" ∧ k ≠ "due" ∧ k ≠ "id" ∧ k ≠ "tags"
      ∧ k ≠ "urgency" := by
    refine ⟨?_, ?_, ?_, ?_, ?_⟩ <;> rintro rfl <;>
      exact hk (by decide)
  by_cases h1 : k = "annotations"
  · subst h1
    rw [hann]
    rfl
  by_cases h2 : k = "status"
  · subst h2
    rw [hs]
    rfl
  by_cases h3 : k = "uuid"
  · subst h3
    rw [hu]
    rfl
  by_cases h4 : k = "description"
  · subst h4
    rw [hd]
    rfl
  have hnt : dlookup k t = none := by
    rw [dlookup_eq_none_iff]
    intro hm
    have hmem := hkeys k hm
    simp only [twKnownKeys, List.mem_cons, List.not_mem_nil,
      or_false] at hmem
    rcases hmem with rfl | rfl | rfl | rfl | rfl | rfl | rfl | rfl | rfl
    · exact h4 rfl
    · exact h2 rfl
    · exact h3 rfl
    · exact hne.1 rfl
    · exact hne.2.1 rfl
    · exact h1 rfl
    · exact hne.2.2.1 rfl
    · exact hne.2.2.2.1 rfl
    · exact hne.2.2.2.2 rfl
  have b1 : (("annotations" : String) == k) = false :=
    beq_eq_false_iff_ne.mpr (fun hh => h1 hh.symm)
  have b2 : (("status" : String) == k) = false :=
    beq_eq_false_iff_ne.mpr (fun hh => h2 hh.symm)
  have b3 : (("uuid" : String) == k) = false :=
    beq_eq_false_iff_ne.mpr (fun hh => h3 hh.symm)
  have b4 : (("description" : String) == k) = false :=
    beq_eq_false_iff_ne.mpr (fun hh => h4 hh.symm)
  have b5 : (("entry" : String) == k) = false :=
    beq_eq_false_iff_ne.mpr (fun hh => hne.1 hh.symm)
  have b6 : (("due" : String) == k) = false :=
    beq_eq_false_iff_ne.mpr (fun hh => hne.2.1 hh.symm)
  rw [hnt]
  simp [dlookup_cons, b1, b2, b3, b4, b5, b6, dlookup]

theorem mem_twKeys_iff {k : String} {t : TwItem} :
    k ∈ twKeys t ↔ dlookup k t ≠ none :=
  ⟨fun hm hn => (dlookup_eq_none_iff.mp hn) hm,
    fun h => by
      by_contra hm
      exact h (dlookup_eq_none_iff.mpr hm)⟩

theorem C2_core (t : TwItem) (dsc st : List Char) (u : UUIDv) (e X : Int)
    (as : List (List Char))
    (hd : dlookup "description" t = some (TwValue.str dsc))
    (hs : dlookup "status" t = some (TwValue.str st))
    (hse : st ∈ statusEnum)
    (hu : dlookup "uuid" t = some (TwValue.uuid u))
    (hann : dlookup "annotations" t = some (TwValue.strList as))
    (hclean : ∀ a ∈ as, cleanPiece a = true)
    (hkeys : ∀ k ∈ twKeys t, k ∈ twKnownKeys) :
    ∀ k, k ∉ allowedDiffKeys →
      dlookup k t = dlookup k (convert_gcal_to_tw
        { summary := dsc
          description := some
            ((headerChars ++ ['\n']) ++ annsChunk as ++ ['\n']
              ++ ('\n' :: statusLine st) ++ ('\n' :: uuidLine u.val))
          startDT := format_datetime e
          endDT := format_datetime X
          htmlLink := none }) := by
  have hgp : parse_gcal_item_desc
      { summary := dsc
        description := some
          ((headerChars ++ ['\n']) ++ annsChunk as ++ ['\n']
            ++ ('\n' :: statusLine st) ++ ('\n' :: uuidLine u.val))
        startDT := format_datetime e
        endDT := format_datetime X
        htmlLink := none }
      = (as, st, some u) := parseDescChars_synth as hclean st hse u
  have hout : convert_gcal_to_tw
      { summary := dsc
        description := some
          ((headerChars ++ ['\n']) ++ annsChunk as ++ ['\n']
            ++ ('\n' :: statusLine st) ++ ('\n' :: uuidLine u.val))
        startDT := format_datetime e
        endDT := format_datetime X
        htmlLink := none }
      = [("annotations", TwValue.strList as), ("status", TwValue.str st),
        ("uuid", TwValue.uuid u), ("description", TwValue.str dsc),
        ("entry", TwValue.dt e), ("due", TwValue.dt X)] := by
    rw [convert_gcal_to_tw_of_parse _ as st u hgp hse]
    rfl
  intro k hk
  rw [hout]
  exact round_trip_pointwise t dsc st u e X as hd hs hu hann hkeys k hk

theorem symmdiff_of_pointwise {t s : TwItem}
    (h : ∀ k, k ∉ allowedDiffKeys → dlookup k t = dlookup k s) :
    symmDiff (twKeys t).toFinset (twKeys s).toFinset ⊆ allowedDiffKeys := by
  intro k hk
  by_contra hka
  have heq := h k hka
  rw [Finset.mem_symmDiff] at hk
  rcases hk with ⟨hin, hnin⟩ | ⟨hin, hnin⟩
  · have h1 := mem_twKeys_iff.mp (List.mem_toFinset.mp hin)
    have h2 : dlookup k s = none :=
      dlookup_eq_none_iff.mpr (fun hm => hnin (List.mem_toFinset.mpr hm))
    exact h1 (heq.trans h2)
  · have h1 := mem_twKeys_iff.mp (List.mem_toFinset.mp hin)
    have h2 : dlookup k t = none :=
      dlookup_eq_none_iff.mpr (fun hm => hnin (List.mem_toFinset.mpr hm))
    exact h1 (heq.symm.trans h2)

/-- C2 counterexample: the claim as stated fails on the code.  The task
`{description: 'Buy milk', status: 'pending', uuid: <u>, entry: 100,
annotations: ['a\nb']}` is a valid TaskItem (the data model places no
constraint on annotation strings), yet the round trip
`convert_gcal_to_tw (convert_tw_to_gcal t)` turns its `annotations`
value `['a\nb']` into `['a']` — the newline inside the annotation splits
it across two description lines and only the first survives — and
`annotations` is not one of the allowed keys
`{entry, due, id, tags, urgency}`. -/
theorem C2_round_trip_counterexample :
    (convert_tw_to_gcal
        [("description", TwValue.str "Buy milk".data),
          ("status", TwValue.str "pending".data),
          ("uuid", TwValue.uuid sampleUuid), ("entry", TwValue.dt 100),
          ("annotations", TwValue.strList ["a\nb".data])]).map
        (fun g => dlookup "annotations" (convert_gcal_to_tw g))
      = some (some (TwValue.strList ["a".data])) ∧
    dlookup "annotations"
        [("description", TwValue.str "Buy milk".data),
          ("status", TwValue.str "pending".data),
          ("uuid", TwValue.uuid sampleUuid), ("entry", TwValue.dt 100),
          ("annotations", TwValue.strList ["a\nb".data])]
      = some (TwValue.strList ["a\nb".data]) ∧
    some (TwValue.strList ["a".data])
      ≠ some (TwValue.strList ["a\nb".data]) ∧
    "annotations" ∉ allowedDiffKeys :=
  ⟨by decide, by decide, by decide, by decide⟩

/-- C2 (amended): for every valid TaskItem `t` — a dict with distinct
keys drawn from the data model's field set, a text `description`, a
`status` in the recognised enum, a UUID `uuid`, a datetime `entry`, an
optional datetime `due`, and an `annotations` list whose strings contain
no newline and carry no leading or trailing whitespace — the round trip
`convert_gcal_to_tw (convert_tw_to_gcal t)` differs from `t` only in the
keys `{entry, due, id, tags, urgency}`: the symmetric difference of the
key sets and the set of intersection keys whose values differ are both
contained in that set, and every other field is value-identical to its
field in `t`. -/
theorem C2_round_trip_field_set (t : TwItem) (dsc st : List Char)
    (u : UUIDv) (e : Int) (as : List (List Char))
    (_hnd : (twKeys t).Nodup)
    (hd : dlookup "description" t = some (TwValue.str dsc))
    (hs : dlookup "status" t = some (TwValue.str st))
    (hse : st ∈ statusEnum)
    (hu : dlookup "uuid" t = some (TwValue.uuid u))
    (he : dlookup "entry" t = some (TwValue.dt e))
    (hann : dlookup "annotations" t = some (TwValue.strList as))
    (hclean : ∀ a ∈ as, cleanPiece a = true)
    (hdue : dlookup "due" t = none
      ∨ ∃ dd, dlookup "due" t = some (TwValue.dt dd))
    (hkeys : ∀ k ∈ twKeys t, k ∈ twKnownKeys) :
    ∃ g : GcalItem, convert_tw_to_gcal t = some g ∧
      symmDiff (twKeys t).toFinset
          (twKeys (convert_gcal_to_tw g)).toFinset ⊆ allowedDiffKeys ∧
      (∀ k ∈ (twKeys t).toFinset ∩ (twKeys (convert_gcal_to_tw g)).toFinset,
        dlookup k t ≠ dlookup k (convert_gcal_to_tw g) →
          k ∈ allowedDiffKeys) ∧
      (∀ k, k ∉ allowedDiffKeys →
        dlookup k t = dlookup k (convert_gcal_to_tw g)) := by
  rcases hdue with hdue | ⟨dd, hdue⟩
  · have hcore := C2_core t dsc st u e (e + oneDay) as hd hs hse hu hann
      hclean hkeys
    refine ⟨_, convert_tw_to_gcal_nodue t dsc st u e as hd hs hu he hann
      hdue, symmdiff_of_pointwise hcore, ?_, hcore⟩
    intro k _ hneq
    by_contra hka
    exact hneq (hcore k hka)
  · have hcore := C2_core t dsc st u e dd as hd hs hse hu hann
      hclean hkeys
    refine ⟨_, convert_tw_to_gcal_due t dsc st u e dd as hd hs hu he hann
      hdue, symmdiff_of_pointwise hcore, ?_, hcore⟩
    intro k _ hneq
    by_contra hka
    exact hneq (hcore k hka)

/-- C2 witness: the amended round-trip theorem applied to a concrete
valid TaskItem carrying annotations, a due date and the extra
TaskWarrior fields `id` / `tags` / `urgency`. -/
theorem C2_round_trip_field_set_witness :
    ∃ g : GcalItem, convert_tw_to_gcal
        [("description", TwValue.str "Buy milk".data),
          ("status", TwValue.str "completed".data),
          ("uuid", TwValue.uuid sampleUuid), ("entry", TwValue.dt 100),
          ("due", TwValue.dt 200),
          ("annotations",
            TwValue.strList ["note one".data, "note: two".data]),
          ("id", TwValue.other 3), ("tags", TwValue.other 4),
          ("urgency", TwValue.other 5)] = some g ∧
      symmDiff (twKeys
            [("description", TwValue.str "Buy milk".data),
              ("status", TwValue.str "completed".data),
              ("uuid", TwValue.uuid sampleUuid), ("entry", TwValue.dt 100),
              ("due", TwValue.dt 200),
              ("annotations",
                TwValue.strList ["note one".data, "note: two".data]),
              ("id", TwValue.other 3), ("tags", TwValue.other 4),
              ("urgency", TwValue.other 5)]).toFinset
          (twKeys (convert_gcal_to_tw g)).toFinset ⊆ allowedDiffKeys ∧
      (∀ k ∈ (twKeys
            [("description", TwValue.str "Buy milk".data),
              ("status", TwValue.str "completed".data),
              ("uuid", TwValue.uuid sampleUuid), ("entry", TwValue.dt 100),
              ("due", TwValue.dt 200),
              ("annotations",
                TwValue.strList ["note one".data, "note: two".data]),
              ("id", TwValue.other 3), ("tags", TwValue.other 4),
              ("urgency", TwValue.other 5)]).toFinset
          ∩ (twKeys (convert_gcal_to_tw g)).toFinset,
        dlookup k
            [("description", TwValue.str "Buy milk".data),
              ("status", TwValue.str "completed".data),
              ("uuid", TwValue.uuid sampleUuid), ("entry", TwValue.dt 100),
              ("due", TwValue.dt 200),
              ("annotations",
                TwValue.strList ["note one".data, "note: two".data]),
              ("id", TwValue.other 3), ("tags", TwValue.other 4),
              ("urgency", TwValue.other 5)]
          ≠ dlookup k (convert_gcal_to_tw g) → k ∈ allowedDiffKeys) ∧
      (∀ k, k ∉ allowedDiffKeys →
        dlookup k
            [("description", TwValue.str "Buy milk".data),
              ("status", TwValue.str "completed".data),
              ("uuid", TwValue.uuid sampleUuid), ("entry", TwValue.dt 100),
              ("due", TwValue.dt 200),
              ("annotations",
                TwValue.strList ["note one".data, "note: two".data]),
              ("id", TwValue.other 3), ("tags", TwValue.other 4),
              ("urgency", TwValue.other 5)]
          = dlookup k (convert_gcal_to_tw g)) :=
  C2_round_trip_field_set _ ("Buy milk".data) ("completed".data)
    sampleUuid 100 (["note one".data, "note: two".data])
    (by decide) rfl rfl (by decide) rfl rfl rfl (by decide)
    (Or.inr ⟨200, rfl⟩) (by decide)

/-- C7: for every task `{description: d, status: 'pending', uuid: u,
entry: t0}` with no due field, `convert_tw_to_gcal` yields summary `d`,
start `t0`, end `t0 + 1 day`, and a description containing the literal
lines `* status: pending` and `* uuid: u`; converting that calendar item
back yields status `pending`, uuid `u`, entry `t0` and due `t0 + 1 day`.
More generally, the end timestamp is the task's due timestamp when
present, else entry + 1 day. -/
theorem C7_dates_and_embedded_lines :
    (∀ (d : List Char) (u : UUIDv) (t0 : Int),
      ∃ g : GcalItem,
        convert_tw_to_gcal
            [("description", TwValue.str d),
              ("status", TwValue.str "pending".data),
              ("uuid", TwValue.uuid u), ("entry", TwValue.dt t0)]
          = some g ∧
        g.summary = d ∧ g.startDT = format_datetime t0 ∧
        g.endDT = format_datetime (t0 + oneDay) ∧
        (∃ desc, g.description = some desc ∧
          "* status: pending".data ∈ splitChar '\n' desc ∧
          ("* uuid: ".data ++ u.val) ∈ splitChar '\n' desc) ∧
        dlookup "status" (convert_gcal_to_tw g)
            = some (TwValue.str "pending".data) ∧
        dlookup "uuid" (convert_gcal_to_tw g) = some (TwValue.uuid u) ∧
        dlookup "entry" (convert_gcal_to_tw g) = some (TwValue.dt t0) ∧
        dlookup "due" (convert_gcal_to_tw g)
          = some (TwValue.dt (t0 + oneDay))) ∧
    (∀ (t : TwItem) (g : GcalItem), convert_tw_to_gcal t = some g →
      (∀ dd : Int, dlookup "due" t = some (TwValue.dt dd) →
        g.endDT = format_datetime dd) ∧
      (dlookup "due" t = none →
        ∃ e : Int, dlookup "entry" t = some (TwValue.dt e) ∧
          g.endDT = format_datetime (e + oneDay))) := by
  constructor
  · intro d u t0
    refine ⟨{ summary := d
              description := some
                ((headerChars ++ ['\n']) ++ annsChunk [] ++ ['\n']
                  ++ ('\n' :: statusLine "pending".data)
                  ++ ('\n' :: uuidLine u.val))
              startDT := format_datetime t0
              endDT := format_datetime (t0 + oneDay)
              htmlLink := none }, rfl, rfl, rfl, rfl, ?_, ?_⟩
    · have hsplit : splitChar '\n'
          ((headerChars ++ ['\n']) ++ annsChunk [] ++ ['\n']
            ++ ('\n' :: statusLine "pending".data)
            ++ ('\n' :: uuidLine u.val))
          = [headerChars, [], [], statusLine "pending".data,
            uuidLine u.val] := by
        rw [synth_desc_eq]
        apply splitChar_joinNl _ (by simp)
        intro p hp
        simp only [List.enumFrom_nil, List.map_nil, List.nil_append,
          List.mem_cons, List.not_mem_nil, or_false] at hp
        rcases hp with rfl | rfl | rfl | rfl | rfl
        · decide
        · simp
        · simp
        · decide
        · exact (uuid_line_facts u).2.2.2.1
      refine ⟨_, rfl, ?_, ?_⟩
      · rw [hsplit]
        simp [statusLine]
      · rw [hsplit]
        have : uuidLine u.val = "* uuid: ".data ++ u.val := rfl
        rw [← this]
        simp
    · have hgp : parse_gcal_item_desc
          { summary := d
            description := some
              ((headerChars ++ ['\n']) ++ annsChunk [] ++ ['\n']
                ++ ('\n' :: statusLine "pending".data)
                ++ ('\n' :: uuidLine u.val))
            startDT := format_datetime t0
            endDT := format_datetime (t0 + oneDay)
            htmlLink := none }
          = ([], "pending".data, some u) :=
        parseDescChars_synth [] (by simp) ("pending".data) (by decide) u
      rw [convert_gcal_to_tw_of_parse _ [] ("pending".data) u hgp
        (by decide)]
      refine ⟨rfl, rfl, rfl, rfl⟩
  · intro t g hg
    rw [convert_tw_to_gcal] at hg
    split at hg
    case _ dsc st u e heq1 heq2 heq3 heq4 =>
      split at hg
      case _ hann =>
        simp only [Option.some_bind] at hg
        split at hg
        case _ hdue =>
          simp only [Option.map_some'] at hg
          cases hg
          constructor
          · intro dd hdd
            rw [hdue] at hdd
            cases hdd
          · intro _
            exact ⟨e, heq4, rfl⟩
        case _ dd hdue =>
          simp only [Option.map_some'] at hg
          cases hg
          constructor
          · intro dd' hdd'
            rw [hdue] at hdd'
            cases hdd'
            rfl
          · intro hnone
            rw [hdue] at hnone
            cases hnone
        case _ v hdue hne =>
          cases hg
      case _ as hann =>
        simp only [Option.some_bind] at hg
        split at hg
        case _ hdue =>
          simp only [Option.map_some'] at hg
          cases hg
          constructor
          · intro dd hdd
            rw [hdue] at hdd
            cases hdd
          · intro _
            exact ⟨e, heq4, rfl⟩
        case _ dd hdue =>
          simp only [Option.map_some'] at hg
          cases hg
          constructor
          · intro dd' hdd'
            rw [hdue] at hdd'
            cases hdd'
            rfl
          · intro hnone
            rw [hdue] at hnone
            cases hnone
        case _ v hdue hne =>
          cases hg
      case _ v hann hne =>
        cases hg
    case _ h1 h2 h3 h4 =>
      cases hg

/-- C7 witness: both halves of the dates theorem applied at concrete
inputs — the scenario task `{description: 'Buy milk', status: 'pending',
uuid: <sampleUuid>, entry: 100}`, and the general end-timestamp rule
evaluated on that same task with its computed calendar item. -/
theorem C7_dates_and_embedded_lines_witness :
    (∃ g : GcalItem,
      convert_tw_to_gcal
          [("description", TwValue.str "Buy milk".data),
            ("status", TwValue.str "pending".data),
            ("uuid", TwValue.uuid sampleUuid), ("entry", TwValue.dt 100)]
        = some g ∧
      g.summary = "Buy milk".data ∧ g.startDT = format_datetime 100 ∧
      g.endDT = format_datetime (100 + oneDay) ∧
      (∃ desc, g.description = some desc ∧
        "* status: pending".data ∈ splitChar '\n' desc ∧
        ("* uuid: ".data ++ sampleUuid.val) ∈ splitChar '\n' desc) ∧
      dlookup "status" (convert_gcal_to_tw g)
          = some (TwValue.str "pending".data) ∧
      dlookup "uuid" (convert_gcal_to_tw g)
          = some (TwValue.uuid sampleUuid) ∧
      dlookup "entry" (convert_gcal_to_tw g) = some (TwValue.dt 100) ∧
      dlookup "due" (convert_gcal_to_tw g)
        = some (TwValue.dt (100 + oneDay))) ∧
    ((∀ dd : Int,
        dlookup "due"
            [("description", TwValue.str "Buy milk".data),
              ("status", TwValue.str "pending".data),
              ("uuid", TwValue.uuid sampleUuid), ("entry", TwValue.dt 100)]
          = some (TwValue.dt dd) →
        ({ summary := "Buy milk".data
           description := some
             ((headerChars ++ ['\n']) ++ annsChunk [] ++ ['\n']
               ++ ('\n' :: statusLine "pending".data)
               ++ ('\n' :: uuidLine sampleUuid.val))
           startDT := format_datetime 100
           endDT := format_datetime (100 + oneDay)
           htmlLink := none } : GcalItem).endDT = format_datetime dd) ∧
      (dlookup "due"
          [("description", TwValue.str "Buy milk".data),
            ("status", TwValue.str "pending".data),
            ("uuid", TwValue.uuid sampleUuid), ("entry", TwValue.dt 100)]
        = none →
        ∃ e : Int,
          dlookup "entry"
              [("description", TwValue.str "Buy milk".data),
                ("status", TwValue.str "pending".data),
                ("uuid", TwValue.uuid sampleUuid),
                ("entry", TwValue.dt 100)]
            = some (TwValue.dt e) ∧
          ({ summary := "Buy milk".data
             description := some
               ((headerChars ++ ['\n']) ++ annsChunk [] ++ ['\n']
                 ++ ('\n' :: statusLine "pending".data)
                 ++ ('\n' :: uuidLine sampleUuid.val))
             startDT := format_datetime 100
             endDT := format_datetime (100 + oneDay)
             htmlLink := none } : GcalItem).endDT
            = format_datetime (e + oneDay))) :=
  ⟨C7_dates_and_embedded_lines.1 ("Buy milk".data) sampleUuid 100,
    C7_dates_and_embedded_lines.2
      [("description", TwValue.str "Buy milk".data),
        ("status", TwValue.str "pending".data),
        ("uuid", TwValue.uuid sampleUuid), ("entry", TwValue.dt 100)]
      _ rfl⟩

theorem convert_gcal_to_tw_of_parse_bad (g : GcalItem)
    (anns : List (List Char)) (st : List Char) (uu : Option UUIDv)
    (hp : parse_gcal_item_desc g = (anns, st, uu))
    (hse : st ∉ statusEnum) :
    convert_gcal_to_tw g
      = [("annotations", TwValue.strList anns)]
        ++ (match uu with
          | some u => [("uuid", TwValue.uuid u)]
          | none => [])
        ++ [("description", TwValue.str g.summary),
          ("entry", TwValue.dt (parse_datetime g.startDT)),
          ("due", TwValue.dt (parse_datetime g.endDT))] := by
  simp only [convert_gcal_to_tw, hp]
  rw [if_neg hse]
  cases uu <;> rfl

/-- C3 counterexample: the claim as stated fails on the code.  A
calendar item whose description embeds `* status: bogus` (on a line the
scan reaches) converts to a task with NO `status` key at all — the
unrecognised value is skipped, not replaced by `pending`; so the status
of the converted task is not `some "pending"` as the claim demands. -/
theorem C3_unrecognized_status_counterexample :
    dlookup "status" (convert_gcal_to_tw
        { summary := "Bogus task".data
          description := some "HDR\n* status: bogus\n* other: x".data
          startDT := format_datetime 1
          endDT := format_datetime 2
          htmlLink := none })
      = none ∧
    ¬(dlookup "status" (convert_gcal_to_tw
        { summary := "Bogus task".data
          description := some "HDR\n* status: bogus\n* other: x".data
          startDT := format_datetime 1
          endDT := format_datetime 2
          htmlLink := none })
      = some (TwValue.str "pending".data)) ∧
    (parseDescChars "HDR\n* status: bogus\n* other: x".data).2.1
      = "bogus".data :=
  ⟨by decide, by decide, by decide⟩

/-- C3 (amended): for every calendar item whose description parses to a
status value outside `{pending, completed, deleted, waiting,
recurring}`, `convert_gcal_to_tw` logs a warning and returns a task with
NO `status` key (the unrecognised value is discarded — it does not
become the task's status — and the conversion does not fail: the other
fields are still produced). -/
theorem C3_unrecognized_status_skipped (g : GcalItem)
    (h : (parse_gcal_item_desc g).2.1 ∉ statusEnum) :
    dlookup "status" (convert_gcal_to_tw g) = none ∧
    dlookup "description" (convert_gcal_to_tw g)
      = some (TwValue.str g.summary) ∧
    dlookup "entry" (convert_gcal_to_tw g)
      = some (TwValue.dt (parse_datetime g.startDT)) ∧
    dlookup "due" (convert_gcal_to_tw g)
      = some (TwValue.dt (parse_datetime g.endDT)) := by
  rcases hpd : parse_gcal_item_desc g with ⟨anns, st, uu⟩
  rw [hpd] at h
  simp only at h
  rw [convert_gcal_to_tw_of_parse_bad g anns st uu hpd h]
  cases uu with
  | none => exact ⟨rfl, rfl, rfl, rfl⟩
  | some u => exact ⟨rfl, rfl, rfl, rfl⟩

/-- C3 witness: the amended theorem applied to the concrete calendar
item embedding `* status: bogus`. -/
theorem C3_unrecognized_status_skipped_witness :
    dlookup "status" (convert_gcal_to_tw
        { summary := "Bogus task".data
          description := some "HDR\n* status: bogus\n* other: x".data
          startDT := format_datetime 1
          endDT := format_datetime 2
          htmlLink := none })
      = none ∧
    dlookup "description" (convert_gcal_to_tw
        { summary := "Bogus task".data
          description := some "HDR\n* status: bogus\n* other: x".data
          startDT := format_datetime 1
          endDT := format_datetime 2
          htmlLink := none })
      = some (TwValue.str ("Bogus task".data)) ∧
    dlookup "entry" (convert_gcal_to_tw
        { summary := "Bogus task".data
          description := some "HDR\n* status: bogus\n* other: x".data
          startDT := format_datetime 1
          endDT := format_datetime 2
          htmlLink := none })
      = some (TwValue.dt (parse_datetime (format_datetime 1))) ∧
    dlookup "due" (convert_gcal_to_tw
        { summary := "Bogus task".data
          description := some "HDR\n* status: bogus\n* other: x".data
          startDT := format_datetime 1
          endDT := format_datetime 2
          htmlLink := none })
      = some (TwValue.dt (parse_datetime (format_datetime 2))) :=
  C3_unrecognized_status_skipped _ (by decide)

/-- C4 counterexample: the claim as stated fails on the code.  In the
description `'X\n* status: completed'` the line `* status: completed` is
the only line remaining after the (empty) annotation run, yet it is NOT
parsed: the loop's break index equals `len(lines) - 1`, so the early
return fires and the default status `pending` is kept; the converted
task carries `status = pending`, not `completed`. -/
theorem C4_parse_counterexample :
    parseDescChars "X\n* status: completed".data
      = ([], "pending".data, none) ∧
    "pending".data ≠ "completed".data ∧
    dlookup "status" (convert_gcal_to_tw
        { summary := "s".data
          description := some "X\n* status: completed".data
          startDT := format_datetime 1
          endDT := format_datetime 2
          htmlLink := none })
      = some (TwValue.str "pending".data) :=
  ⟨by decide, by decide, by decide⟩

/-- C4 (amended): for every calendar item description, parsing proceeds
as: split on newlines into pieces, discard empties, strip each, discard
the first (header) line, and greedily consume the prefix run of
annotation lines; then, EXCEPT when the run stops at the last line or
consumes every line — in which case the remaining lines are NOT scanned
and the defaults (status `pending`, identifier unset) are kept — the
lines from the first non-matching one onward are scanned for
`* status:` and `* uuid:` entries, an unparseable uuid leaving the
identifier unset without failing the conversion.  Stated here for a
description assembled from any header and any newline-free,
pre-stripped, non-empty lines. -/
theorem C4_parse_algorithm (header : List Char) (ls : List (List Char))
    (hh : header ≠ [] ∧ '\n' ∉ header)
    (hls : ∀ l ∈ ls, l ≠ [] ∧ '\n' ∉ l ∧ pyStrip l = l) :
    parseDescChars (joinNl (header :: ls))
      = (if 1 ≤ ls.length
            ∧ ls.length ≤ (ls.takeWhile isAnnLine).length + 1 then
          ((ls.takeWhile isAnnLine).map annVal, "pending".data, none)
        else
          ((ls.takeWhile isAnnLine).map annVal,
            ((ls.drop (ls.takeWhile isAnnLine).length).foldl scanStep
              ("pending".data, none)).1,
            ((ls.drop (ls.takeWhile isAnnLine).length).foldl scanStep
              ("pending".data, none)).2)) := by
  have hlines : (((splitChar '\n' (joinNl (header :: ls))).filter
      (fun l => l ≠ [])).map pyStrip).drop 1 = ls := by
    rw [splitChar_joinNl ?hnl (List.cons_ne_nil _ _)]
    case hnl =>
      intro p hp
      rcases List.mem_cons.mp hp with rfl | hp
      · exact hh.2
      · exact (hls p hp).2.1
    rw [List.filter_cons, if_pos (decide_eq_true hh.1)]
    rw [List.filter_eq_self.mpr (fun l hl => decide_eq_true (hls l hl).1)]
    rw [List.map_cons, List.drop_one, List.tail_cons]
    rw [List.map_congr_left (fun l hl => (hls l hl).2.2)]
    exact List.map_id' ls
  simp only [parseDescChars, hlines]
  have hjle : (ls.takeWhile isAnnLine).length ≤ ls.length :=
    (List.takeWhile_prefix _).length_le
  by_cases hn0 : ls.length = 0
  · have : ls = [] := List.length_eq_zero.mp hn0
    subst this
    simp
  · by_cases hjn : (ls.takeWhile isAnnLine).length = ls.length
    · rw [if_pos hjn, if_pos (by omega : ((ls.length - 1 : Nat) : Int)
        = (ls.length : Int) - 1)]
      rw [if_pos ⟨by omega, by omega⟩]
    · rw [if_neg hjn]
      by_cases hlast : (ls.takeWhile isAnnLine).length = ls.length - 1
      · rw [if_pos (by omega : (((ls.takeWhile isAnnLine).length : Nat)
          : Int) = (ls.length : Int) - 1)]
        rw [if_pos ⟨by omega, by omega⟩]
      · rw [if_neg (by omega : ¬(((ls.takeWhile isAnnLine).length : Nat)
          : Int) = (ls.length : Int) - 1)]
        rw [if_neg (by omega :
          ¬(1 ≤ ls.length
            ∧ ls.length ≤ (ls.takeWhile isAnnLine).length + 1))]

/-- C4 witness: the amended parsing theorem applied to a concrete
description whose annotation run is followed by status and uuid lines,
the uuid line carrying an unparseable value (`zz`), which leaves the
identifier unset while the status is still parsed. -/
theorem C4_parse_algorithm_witness :
    ("HDR".data ≠ [] ∧ '\n' ∉ "HDR".data) ∧
    parseDescChars (joinNl ["HDR".data, "* Annotation 1: a".data,
        "* status: completed".data, "* uuid: zz".data])
      = (if 1 ≤ (["* Annotation 1: a".data, "* status: completed".data,
              "* uuid: zz".data] : List (List Char)).length
            ∧ (["* Annotation 1: a".data, "* status: completed".data,
              "* uuid: zz".data] : List (List Char)).length
              ≤ ((["* Annotation 1: a".data, "* status: completed".data,
                "* uuid: zz".data] : List (List Char)).takeWhile
                  isAnnLine).length + 1 then
          (((["* Annotation 1: a".data, "* status: completed".data,
              "* uuid: zz".data] : List (List Char)).takeWhile
                isAnnLine).map annVal, "pending".data, none)
        else
          (((["* Annotation 1: a".data, "* status: completed".data,
              "* uuid: zz".data] : List (List Char)).takeWhile
                isAnnLine).map annVal,
            (((["* Annotation 1: a".data, "* status: completed".data,
              "* uuid: zz".data] : List (List Char)).drop
                ((["* Annotation 1: a".data, "* status: completed".data,
                  "* uuid: zz".data] : List (List Char)).takeWhile
                    isAnnLine).length).foldl scanStep
              ("pending".data, none)).1,
            (((["* Annotation 1: a".data, "* status: completed".data,
              "* uuid: zz".data] : List (List Char)).drop
                ((["* Annotation 1: a".data, "* status: completed".data,
                  "* uuid: zz".data] : List (List Char)).takeWhile
                    isAnnLine).length).foldl scanStep
              ("pending".data, none)).2)) ∧
    parseDescChars (joinNl ["HDR".data, "* Annotation 1: a".data,
        "* status: completed".data, "* uuid: zz".data])
      = (["a".data], "completed".data, none) :=
  ⟨⟨by decide, by decide⟩,
    C4_parse_algorithm ("HDR".data)
      ["* Annotation 1: a".data, "* status: completed".data,
        "* uuid: zz".data]
      ⟨by decide, by decide⟩ (by decide),
    by decide⟩

theorem hasTask_eq_false_iff {d : Bidict} {k : List Char} :
    hasTask d k = false ↔ k ∉ d.map Prod.fst := by
  rw [hasTask]
  constructor
  · intro h hm
    rcases List.mem_map.mp hm with ⟨p, hp, rfl⟩
    exact List.any_eq_false.mp h p hp (by simp)
  · intro h
    rw [← Bool.not_eq_true]
    intro hc
    rcases List.any_eq_true.mp hc with ⟨p, hp, hb⟩
    exact h (List.mem_map.mpr ⟨p, hp, eq_of_beq hb⟩)

theorem hasCal_eq_false_iff {d : Bidict} {v : List Char} :
    hasCal d v = false ↔ v ∉ d.map Prod.snd := by
  rw [hasCal]
  constructor
  · intro h hm
    rcases List.mem_map.mp hm with ⟨p, hp, rfl⟩
    exact List.any_eq_false.mp h p hp (by simp)
  · intro h
    rw [← Bool.not_eq_true]
    intro hc
    rcases List.any_eq_true.mp hc with ⟨p, hp, hb⟩
    exact h (List.mem_map.mpr ⟨p, hp, eq_of_beq hb⟩)

theorem bInsert_WF {d : Bidict} {k v : List Char} (h : BidictWF d)
    {d2 : Bidict} (hins : bInsert d k v = some d2) : BidictWF d2 := by
  rw [bInsert] at hins
  by_cases hc : (hasTask d k || hasCal d v) = true
  · rw [if_pos hc] at hins
    cases hins
  · rw [if_neg hc] at hins
    cases hins
    have h1 : hasTask d k = false := by
      revert hc
      cases hasTask d k <;> simp
    have h2 : hasCal d v = false := by
      revert hc
      cases hasCal d v <;> simp
    exact ⟨List.nodup_cons.mpr ⟨hasTask_eq_false_iff.mp h1, h.1⟩,
      List.nodup_cons.mpr ⟨hasCal_eq_false_iff.mp h2, h.2⟩⟩

theorem removeByTask_WF {d : Bidict} (h : BidictWF d) (k : List Char) :
    BidictWF (removeByTask d k) :=
  ⟨h.1.sublist ((List.filter_sublist d).map Prod.fst),
    h.2.sublist ((List.filter_sublist d).map Prod.snd)⟩

theorem removeByCalendar_WF {d : Bidict} (h : BidictWF d)
    (v : List Char) : BidictWF (removeByCalendar d v) :=
  ⟨h.1.sublist ((List.filter_sublist d).map Prod.fst),
    h.2.sublist ((List.filter_sublist d).map Prod.snd)⟩

theorem viewInsert_WF {ty : SideTag} {d : Bidict} {i y : List Char}
    (h : BidictWF d) {d2 : Bidict}
    (hins : viewInsert ty d i y = some d2) : BidictWF d2 := by
  cases ty
  · exact bInsert_WF h hins
  · exact bInsert_WF h hins

theorem register_items_WF (o : AddOracle) (ty : SideTag) :
    ∀ (items : List SyncItem) (d : Bidict) (n : Nat), BidictWF d →
      BidictWF (register_items o ty items d n).table := by
  intro items
  induction items with
  | nil => exact fun d n h => h
  | cons it rest ih =>
    intro d n h
    simp only [register_items]
    cases hnid : nativeId ty it with
    | none => exact h
    | some i =>
      dsimp only
      by_cases hhk : viewHasKey ty d i = true
      · rw [if_pos hhk]
        exact ih d n h
      · rw [if_neg hhk]
        cases hcv : convertFor ty it with
        | none => exact h
        | some c =>
          dsimp only
          cases hor : o n with
          | none => exact h
          | some y =>
            dsimp only
            cases hvi : viewInsert ty d i y with
            | none => exact h
            | some d2 =>
              dsimp only
              exact ih d2 (n + 1) (viewInsert_WF h hvi)

theorem viewHasKey_insert_mono {ty : SideTag} {d : Bidict}
    {i y x : List Char} {d2 : Bidict}
    (hins : viewInsert ty d i y = some d2)
    (hx : viewHasKey ty d x = true) : viewHasKey ty d2 x = true := by
  cases ty with
  | tw =>
    simp only [viewInsert, bInsert] at hins
    by_cases hc : (hasTask d i || hasCal d y) = true
    · rw [if_pos hc] at hins
      cases hins
    · rw [if_neg hc] at hins
      cases hins
      simp only [viewHasKey, hasTask] at hx ⊢
      rcases List.any_eq_true.mp hx with ⟨p, hp, hb⟩
      exact List.any_eq_true.mpr ⟨p, List.mem_cons_of_mem _ hp, hb⟩
  | gcal =>
    simp only [viewInsert, bInsert] at hins
    by_cases hc : (hasTask d y || hasCal d i) = true
    · rw [if_pos hc] at hins
      cases hins
    · rw [if_neg hc] at hins
      cases hins
      simp only [viewHasKey, hasCal] at hx ⊢
      rcases List.any_eq_true.mp hx with ⟨p, hp, hb⟩
      exact List.any_eq_true.mpr ⟨p, List.mem_cons_of_mem _ hp, hb⟩

theorem register_items_mono (o : AddOracle) (ty : SideTag) :
    ∀ (items : List SyncItem) (d : Bidict) (n : Nat) (x : List Char),
      viewHasKey ty d x = true →
      viewHasKey ty (register_items o ty items d n).table x = true := by
  intro items
  induction items with
  | nil => exact fun d n x hx => hx
  | cons it rest ih =>
    intro d n x hx
    simp only [register_items]
    cases hnid : nativeId ty it with
    | none => exact hx
    | some i =>
      dsimp only
      by_cases hhk : viewHasKey ty d i = true
      · rw [if_pos hhk]
        exact ih d n x hx
      · rw [if_neg hhk]
        cases hcv : convertFor ty it with
        | none => exact hx
        | some c =>
          dsimp only
          cases hor : o n with
          | none => exact hx
          | some y =>
            dsimp only
            cases hvi : viewInsert ty d i y with
            | none => exact hx
            | some d2 =>
              dsimp only
              exact ih d2 (n + 1) x (viewHasKey_insert_mono hvi hx)

theorem viewHasKey_insert_self {ty : SideTag} {d : Bidict}
    {i y : List Char} {d2 : Bidict}
    (hins : viewInsert ty d i y = some d2) :
    viewHasKey ty d2 i = true := by
  cases ty with
  | tw =>
    simp only [viewInsert, bInsert] at hins
    by_cases hc : (hasTask d i || hasCal d y) = true
    · rw [if_pos hc] at hins
      cases hins
    · rw [if_neg hc] at hins
      cases hins
      simp only [viewHasKey, hasTask]
      exact List.any_eq_true.mpr ⟨_, List.mem_cons_self _ _, by simp⟩
  | gcal =>
    simp only [viewInsert, bInsert] at hins
    by_cases hc : (hasTask d y || hasCal d i) = true
    · rw [if_pos hc] at hins
      cases hins
    · rw [if_neg hc] at hins
      cases hins
      simp only [viewHasKey, hasCal]
      exact List.any_eq_true.mpr ⟨_, List.mem_cons_self _ _, by simp⟩

theorem register_items_covers (o : AddOracle) (ty : SideTag) :
    ∀ (items : List SyncItem) (d : Bidict) (n : Nat),
      (register_items o ty items d n).err = none →
      ∀ it ∈ items, ∃ x, nativeId ty it = some x ∧
        viewHasKey ty (register_items o ty items d n).table x = true := by
  intro items
  induction items with
  | nil => exact fun d n _ it hit => absurd hit (List.not_mem_nil _)
  | cons it0 rest ih =>
    intro d n herr it hit
    simp only [register_items] at herr ⊢
    cases hnid : nativeId ty it0 with
    | none =>
      rw [hnid] at herr
      cases herr
    | some i =>
      rw [hnid] at herr
      dsimp only at herr ⊢
      by_cases hhk : viewHasKey ty d i = true
      · rw [if_pos hhk] at herr ⊢
        rcases List.mem_cons.mp hit with rfl | hit
        · exact ⟨i, hnid, register_items_mono o ty rest d n i hhk⟩
        · exact ih d n herr it hit
      · rw [if_neg hhk] at herr ⊢
        cases hcv : convertFor ty it0 with
        | none =>
          rw [hcv] at herr
          cases herr
        | some c =>
          rw [hcv] at herr
          dsimp only at herr ⊢
          cases hor : o n with
          | none =>
            rw [hor] at herr
            cases herr
          | some y =>
            rw [hor] at herr
            dsimp only at herr ⊢
            cases hvi : viewInsert ty d i y with
            | none =>
              rw [hvi] at herr
              cases herr
            | some d2 =>
              rw [hvi] at herr
              dsimp only at herr ⊢
              rcases List.mem_cons.mp hit with rfl | hit
              · exact ⟨i, hnid, register_items_mono o ty rest d2 (n + 1) i
                  (viewHasKey_insert_self hvi)⟩
              · exact ih d2 (n + 1) herr it hit

theorem register_items_all_skip (o : AddOracle) (ty : SideTag) :
    ∀ (items : List SyncItem) (d : Bidict) (n : Nat),
      (∀ it ∈ items, ∃ x, nativeId ty it = some x ∧
        viewHasKey ty d x = true) →
      register_items o ty items d n = ⟨d, [], n, none⟩ := by
  intro items
  induction items with
  | nil => exact fun d n _ => rfl
  | cons it0 rest ih =>
    intro d n hall
    rcases hall it0 (List.mem_cons_self _ _) with ⟨x, hx, hhk⟩
    simp only [register_items, hx]
    rw [if_pos hhk]
    exact ih d n (fun it hit => hall it (List.mem_cons_of_mem _ hit))

/-- C5: the bijection invariant of the Correspondence Table — no task
identifier and no calendar identifier appears in more than one entry —
is preserved by every operation (insert, removeByTask,
removeByCalendar, and a whole `register_items` pass), and an insert that
would bind an identifier already present on either side fails
(`DuplicateMappingError`, modelled as `none`) rather than overwriting an
existing entry. -/
theorem C5_bijection_invariant (d : Bidict) (k v : List Char)
    (h : BidictWF d) :
    (∀ d2, bInsert d k v = some d2 → BidictWF d2) ∧
    ((hasTask d k || hasCal d v) = true → bInsert d k v = none) ∧
    BidictWF (removeByTask d k) ∧
    BidictWF (removeByCalendar d v) ∧
    (∀ (o : AddOracle) (ty : SideTag) (items : List SyncItem) (n : Nat),
      BidictWF (register_items o ty items d n).table) :=
  ⟨fun _ hins => bInsert_WF h hins,
    fun hc => by rw [bInsert, if_pos hc],
    removeByTask_WF h k,
    removeByCalendar_WF h v,
    fun o ty items n => register_items_WF o ty items d n h⟩

/-- C5 witness: the invariant theorem applied to a concrete well-formed
table with one entry, inserting a fresh pair, a duplicate pair, and
removing by either key, plus a one-item registration pass. -/
theorem C5_bijection_invariant_witness :
    (∀ d2, bInsert [("t1".data, "c1".data)] ("t2".data) ("c2".data)
      = some d2 → BidictWF d2) ∧
    ((hasTask [("t1".data, "c1".data)] ("t2".data)
        || hasCal [("t1".data, "c1".data)] ("c2".data)) = true →
      bInsert [("t1".data, "c1".data)] ("t2".data) ("c2".data) = none) ∧
    BidictWF (removeByTask [("t1".data, "c1".data)] ("t2".data)) ∧
    BidictWF (removeByCalendar [("t1".data, "c1".data)] ("c2".data)) ∧
    (∀ (o : AddOracle) (ty : SideTag) (items : List SyncItem) (n : Nat),
      BidictWF (register_items o ty items
        [("t1".data, "c1".data)] n).table) :=
  C5_bijection_invariant [("t1".data, "c1".data)] ("t2".data)
    ("c2".data) (by decide)

/-- C6: registration is idempotent — when a `register_items` pass
completes without an exception, re-running it on the same items against
the resulting Correspondence Table issues no `add_item` call at all
(every item's native identifier is found in the table on the
appropriate side and skipped) and leaves the table unchanged. -/
theorem C6_idempotent_registration (o o2 : AddOracle) (ty : SideTag)
    (items : List SyncItem) (d : Bidict) (n n2 : Nat)
    (h : (register_items o ty items d n).err = none) :
    (register_items o2 ty items
        (register_items o ty items d n).table n2).calls = [] ∧
    (register_items o2 ty items
        (register_items o ty items d n).table n2).table
      = (register_items o ty items d n).table := by
  rw [register_items_all_skip o2 ty items _ n2
    (register_items_covers o ty items d n h)]
  exact ⟨rfl, rfl⟩

/-- C6 witness: the idempotence theorem applied to a successful
registration of one fresh TaskWarrior item against an empty table. -/
theorem C6_idempotent_registration_witness :
    (register_items (fun _ => none) SideTag.tw
        [SyncItem.twI
          [("description", TwValue.str "Buy milk".data),
            ("status", TwValue.str "pending".data),
            ("uuid", TwValue.uuid sampleUuid), ("entry", TwValue.dt 100)]]
        (register_items (fun _ => some "link1".data) SideTag.tw
          [SyncItem.twI
            [("description", TwValue.str "Buy milk".data),
              ("status", TwValue.str "pending".data),
              ("uuid", TwValue.uuid sampleUuid),
              ("entry", TwValue.dt 100)]]
          [] 0).table 0).calls = [] ∧
    (register_items (fun _ => none) SideTag.tw
        [SyncItem.twI
          [("description", TwValue.str "Buy milk".data),
            ("status", TwValue.str "pending".data),
            ("uuid", TwValue.uuid sampleUuid), ("entry", TwValue.dt 100)]]
        (register_items (fun _ => some "link1".data) SideTag.tw
          [SyncItem.twI
            [("description", TwValue.str "Buy milk".data),
              ("status", TwValue.str "pending".data),
              ("uuid", TwValue.uuid sampleUuid),
              ("entry", TwValue.dt 100)]]
          [] 0).table 0).table
      = (register_items (fun _ => some "link1".data) SideTag.tw
          [SyncItem.twI
            [("description", TwValue.str "Buy milk".data),
              ("status", TwValue.str "pending".data),
              ("uuid", TwValue.uuid sampleUuid),
              ("entry", TwValue.dt 100)]]
          [] 0).table :=
  C6_idempotent_registration (fun _ => some "link1".data)
    (fun _ => none) SideTag.tw
    [SyncItem.twI
      [("description", TwValue.str "Buy milk".data),
        ("status", TwValue.str "pending".data),
        ("uuid", TwValue.uuid sampleUuid), ("entry", TwValue.dt 100)]]
    [] 0 0 (by decide)

/-- C8: per-item atomicity on adapter failure — when a `register_items`
pass aborts because the remote `add_item` call for an item raised
(`AdapterError`, recorded with that item's native identifier), the
exception propagates (the pass's `err` field) and no Correspondence
Table entry is bound to that identifier on the registering side: the
entry is recorded only after `add_item` returns. -/
theorem C8_adapter_failure_atomic (o : AddOracle) (ty : SideTag) :
    ∀ (items : List SyncItem) (d : Bidict) (n : Nat) (x : List Char),
      (register_items o ty items d n).err
          = some (RegError.adapterError x) →
      viewHasKey ty (register_items o ty items d n).table x = false := by
  intro items
  induction items with
  | nil =>
    intro d n x herr
    cases herr
  | cons it0 rest ih =>
    intro d n x herr
    simp only [register_items] at herr ⊢
    cases hnid : nativeId ty it0 with
    | none =>
      rw [hnid] at herr
      cases herr
    | some i =>
      rw [hnid] at herr
      dsimp only at herr ⊢
      by_cases hhk : viewHasKey ty d i = true
      · rw [if_pos hhk] at herr ⊢
        exact ih d n x herr
      · rw [if_neg hhk] at herr ⊢
        cases hcv : convertFor ty it0 with
        | none =>
          rw [hcv] at herr
          cases herr
        | some c =>
          rw [hcv] at herr
          dsimp only at herr ⊢
          cases hor : o n with
          | none =>
            rw [hor] at herr
            dsimp only at herr ⊢
            cases herr
            rw [← Bool.not_eq_true]
            exact hhk
          | some y =>
            rw [hor] at herr
            dsimp only at herr ⊢
            cases hvi : viewInsert ty d i y with
            | none =>
              rw [hvi] at herr
              cases herr
            | some d2 =>
              rw [hvi] at herr
              dsimp only at herr ⊢
              exact ih d2 (n + 1) x herr

/-- C8 witness: the atomicity theorem applied to a pass whose adapter
always raises — registering one fresh task aborts with an
`adapterError` carrying the task's uuid, and that uuid is absent from
the resulting table. -/
theorem C8_adapter_failure_atomic_witness :
    (register_items (fun _ => none) SideTag.tw
        [SyncItem.twI
          [("description", TwValue.str "Buy milk".data),
            ("status", TwValue.str "pending".data),
            ("uuid", TwValue.uuid sampleUuid), ("entry", TwValue.dt 100)]]
        [] 0).err = some (RegError.adapterError sampleUuid.val) ∧
    viewHasKey SideTag.tw
        (register_items (fun _ => none) SideTag.tw
          [SyncItem.twI
            [("description", TwValue.str "Buy milk".data),
              ("status", TwValue.str "pending".data),
              ("uuid", TwValue.uuid sampleUuid),
              ("entry", TwValue.dt 100)]]
          [] 0).table sampleUuid.val = false :=
  ⟨by decide,
    C8_adapter_failure_atomic (fun _ => none) SideTag.tw
      [SyncItem.twI
        [("description", TwValue.str "Buy milk".data),
          ("status", TwValue.str "pending".data),
          ("uuid", TwValue.uuid sampleUuid), ("entry", TwValue.dt 100)]]
      [] 0 sampleUuid.val (by decide)⟩

/-- C1 (code-bug evidence): `register_items` computes
`side = self.gcal_side if item_type == "tw" else self.gcal_side`
(source line 91), naming the calendar side in BOTH branches despite the
comment "Use opposite side!".  Evaluating the embedded loop: registering
a fresh calendar-side item issues its `add_item` call on the CALENDAR
side — where the claim (and spec §4.3) requires the task side — while
registering a task-side item issues it on the calendar side as the
claim states; the assigned identifier is then paired with the item's
identifier in the table. -/
theorem C1_side_selection_eval :
    ((register_items (fun _ => some "tw-uuid-assigned".data)
        SideTag.gcal
        [SyncItem.gcalI
          { summary := "ev".data
            description := none
            startDT := format_datetime 1
            endDT := format_datetime 2
            htmlLink := some "link1".data }]
        [] 0).calls.map Prod.fst = [SideTag.gcal]) ∧
    ((register_items (fun _ => some "link1".data) SideTag.tw
        [SyncItem.twI
          [("description", TwValue.str "Buy milk".data),
            ("status", TwValue.str "pending".data),
            ("uuid", TwValue.uuid sampleUuid), ("entry", TwValue.dt 100)]]
        [] 0).calls.map Prod.fst = [SideTag.gcal]) ∧
    (register_items (fun _ => some "tw-uuid-assigned".data)
        SideTag.gcal
        [SyncItem.gcalI
          { summary := "ev".data
            description := none
            startDT := format_datetime 1
            endDT := format_datetime 2
            htmlLink := some "link1".data }]
        [] 0).table
      = [("tw-uuid-assigned".data, "link1".data)] ∧
    (register_items (fun _ => some "link1".data) SideTag.tw
        [SyncItem.twI
          [("description", TwValue.str "Buy milk".data),
            ("status", TwValue.str "pending".data),
            ("uuid", TwValue.uuid sampleUuid), ("entry", TwValue.dt 100)]]
        [] 0).table
      = [(sampleUuid.val, "link1".data)] :=
  ⟨by decide, by decide, by decide, by decide⟩

/-- C9: `TaskWarriorSide.add_item` reads the misspelt key
`item['desscription']` for its truncated-logging length; for every item
that contains the `description` key but lacks `desscription`, the
operation fails with a `KeyError`-class error before ever reaching the
store's `task_add` — it does not silently proceed. -/
theorem C9_add_item_keyerror (item : TwItem)
    (h1 : dlookup "description" item ≠ none)
    (h2 : dlookup "desscription" item = none) :
    add_item item = Except.error AddErr.keyError := by
  cases hd : dlookup "description" item with
  | none => exact absurd hd h1
  | some v =>
    rw [add_item, hd, h2]

/-- C9 witness: the KeyError theorem applied to a concrete item that
has a `description` but no `desscription` key. -/
theorem C9_add_item_keyerror_witness :
    dlookup "description"
        [("description", TwValue.str "Buy milk".data)] ≠ none ∧
    dlookup "desscription"
        [("description", TwValue.str "Buy milk".data)] = none ∧
    add_item [("description", TwValue.str "Buy milk".data)]
      = Except.error AddErr.keyError :=
  ⟨by decide, by decide,
    C9_add_item_keyerror [("description", TwValue.str "Buy milk".data)]
      (by decide) (by decide)⟩

/-- C10 (code-bug evidence): with more than one tag, `main` raises
before any sync work, as the claim states; but with exactly one tag it
STILL aborts before fetching or registering anything, because `main`
passes `tags` as the list `list(tw_tags)` while
`TaskWarriorSide.__init__` requires a plain string and raises
`RuntimeError` otherwise — so the single-tag case never reaches the
sync pass either. -/
theorem C10_tag_validation_eval :
    mainScript ["work".data, "home".data] = MainOutcome.multiTagAbort ∧
    mainScript ["work".data] = MainOutcome.sideInitAbort ∧
    mainScript ["work".data] ≠ MainOutcome.syncStarted :=
  ⟨rfl, rfl, by decide⟩
